import Mathlib

/-!
# Camera buffer lifecycle and exposure metering

A shallow embedding of `system/camerad/cameras/camera_common.cc`:
the exposure meter `calculate_exposure_value`, the orchestrator operations
`CameraBuf::init`, `CameraBuf::acquire`, `CameraBuf::queue`, the destructor, the device
lookup `open_v4l_by_name_and_index`, and the properties the specification states about
them.

Conventions of the embedding.
* C++ `int` values are mathematical integers (`Int`); signed overflow is undefined
  behaviour in C++ and is not given a meaning here.
* `unsigned int` / `uint32_t` counters are naturals reduced modulo `2^32` after every
  update, `size_t` indices modulo `2^64`; products computed in 32-bit arithmetic are
  reduced modulo `2^32` before they are stored.
* Floating-point values that are not exactly representable are computed with IEEE 754
  rounding to nearest, on significand and exponent.
* Calls into external collaborators (the publishing service, the raw buffers) are
  recorded in call traces carried by the state.
-/

namespace CameraCommon

/-! ## Exposure meter -/

/-- Modulus of `unsigned int` and `uint32_t` arithmetic. -/
def U32 : Nat := 4294967296

/-- Modulus of `size_t` arithmetic. -/
def U64 : Nat := 18446744073709551616

/-- The metering rectangle `Rect`, four `int` fields. -/
structure Rect where
  x : Int
  y : Int
  w : Int
  h : Int
deriving DecidableEq

/-- The part of `VisionBuf` the meter reads (its declaration is absent): the luminance
plane pointer `y`, seen as the bytes found at each offset from it, and the row `stride`,
an unsigned 64-bit size. -/
structure VisionBuf where
  y : Nat → Nat
  stride : Nat

/-- The read `pix_ptr[(y * b->cur_yuv_buf->stride) + x]`: the offset is computed in
unsigned 64-bit arithmetic, the value read is a `uint8_t`. For a point of a region that
lies inside the buffer this is the plane byte of row `y`, column `x`. -/
def VisionBuf.lum (b : VisionBuf) (y x : Int) : Nat :=
  b.y (((y * (b.stride : Int) + x) % (U64 : Int)).toNat) % 256

/-- The locals `lum_binning[256]` and `lum_total` of `calculate_exposure_value`. -/
structure LumStats where
  lum_binning : Nat → Nat
  lum_total : Nat

/-- The state `uint32_t lum_binning[256] = {0}; unsigned int lum_total = 0;`. -/
def LumStats.zero : LumStats :=
  { lum_binning := fun _ => 0, lum_total := 0 }

/-- The loop body `lum_binning[lum]++; lum_total += 1;`. -/
def LumStats.record (st : LumStats) (lum : Nat) : LumStats :=
  { lum_binning := fun k => if k = lum then (st.lum_binning k + 1) % U32 else st.lum_binning k,
    lum_total := (st.lum_total + 1) % U32 }

/-- The inner loop `for (x = ...; x < ae_xywh.x + ae_xywh.w; x += x_skip)` of row `y`,
started at column `x`. The first argument bounds the number of iterations; `none` means the
loop is still running when the bound is used up. -/
def row_loop (b : VisionBuf) (ae_xywh : Rect) (x_skip : Int) (y : Int) :
    Nat → Int → LumStats → Option LumStats
  | 0, x, st => if x < ae_xywh.x + ae_xywh.w then none else some st
  | fuel + 1, x, st =>
    if x < ae_xywh.x + ae_xywh.w then
      row_loop b ae_xywh x_skip y fuel (x + x_skip) (st.record (b.lum y x))
    else some st

/-- The outer loop `for (y = ...; y < ae_xywh.y + ae_xywh.h; y += y_skip)`, started at
row `y`. Each row runs the inner loop from `ae_xywh.x` with the bound `ae_xywh.w`, which
suffices whenever `x_skip >= 1`. -/
def frame_loop (b : VisionBuf) (ae_xywh : Rect) (x_skip y_skip : Int) :
    Nat → Int → LumStats → Option LumStats
  | 0, y, st => if y < ae_xywh.y + ae_xywh.h then none else some st
  | fuel + 1, y, st =>
    if y < ae_xywh.y + ae_xywh.h then
      match row_loop b ae_xywh x_skip y ae_xywh.w.toNat ae_xywh.x st with
      | none => none
      | some st1 => frame_loop b ae_xywh x_skip y_skip fuel (y + y_skip) st1
    else some st

/-- The descending scan
`for (lum_med = 255; lum_med >= 0; lum_med--) { lum_cur += lum_binning[lum_med]; if (lum_cur >= lum_total / 2) break; }`
entered with `lum_med = n - 1` and the running count `lum_cur`; the result is the final
`lum_med`, which is `-1` when the loop runs past bucket 0. -/
def median_scan (lum_binning : Nat → Nat) (lum_total : Nat) : Nat → Nat → Int
  | 0, _ => -1
  | n + 1, lum_cur =>
    if lum_total / 2 ≤ (lum_cur + lum_binning n) % U32 then (n : Int)
    else median_scan lum_binning lum_total n ((lum_cur + lum_binning n) % U32)

/-- The value of `lum_med` at the `return` of `calculate_exposure_value`; `none` when the
sampling loops do not terminate (a step that is not positive over a non-empty region). -/
def exposure_level (b : VisionBuf) (ae_xywh : Rect) (x_skip y_skip : Int) : Option Int :=
  match frame_loop b ae_xywh x_skip y_skip ae_xywh.h.toNat ae_xywh.y LumStats.zero with
  | none => none
  | some st => some (median_scan st.lum_binning st.lum_total 256 0)

/-- The function `calculate_exposure_value`, applied to the buffer `b->cur_yuv_buf` points
to. The result `lum_med / 256.0` is a multiple of `1/256` between `-1/256` and `255/256`,
exactly representable in `float`, and is given as a rational. -/
def calculate_exposure_value (b : VisionBuf) (ae_xywh : Rect) (x_skip y_skip : Int) :
    Option ℚ :=
  (exposure_level b ae_xywh x_skip y_skip).map (fun lum_med => (lum_med : ℚ) / 256)

/-! ### The sampled pixels, in closed form -/

/-- Number of loop iterations of `for (i = start; i < start + len; i += step)`
for `step >= 1`: the ceiling of `len / step`, and 0 for an empty range. -/
def step_count (len step : Int) : Nat :=
  if len ≤ 0 then 0 else ((len + step - 1) / step).toNat

/-- The luminances sampled in row `y`: columns `x, x + x_skip, ...` below
`ae_xywh.x + ae_xywh.w`. -/
def row_samples (b : VisionBuf) (ae_xywh : Rect) (x_skip : Int) (y : Int) : List Nat :=
  (List.range (step_count ae_xywh.w x_skip)).map
    (fun (j : Nat) => b.lum y (ae_xywh.x + (j : Int) * x_skip))

/-- All sampled luminances, row by row in scan order: the rectangle sub-sampled every
`x_skip` columns and `y_skip` rows. -/
def samples (b : VisionBuf) (ae_xywh : Rect) (x_skip y_skip : Int) : List Nat :=
  ((List.range (step_count ae_xywh.h y_skip)).map
    (fun (i : Nat) => row_samples b ae_xywh x_skip (ae_xywh.y + (i : Int) * y_skip))).flatten

/-- Number of samples whose luminance is at least `L`. -/
def count_ge (l : List Nat) (L : Nat) : Nat :=
  l.countP (fun s => decide (L ≤ s))

/-- Number of samples whose luminance is at most `L`. -/
def count_le (l : List Nat) (L : Nat) : Nat :=
  l.countP (fun s => decide (s ≤ L))

/-- A luminance plane whose every byte is `v`, with the given row stride. -/
def uniform_buf (v stride : Nat) : VisionBuf :=
  { y := fun _ => v, stride := stride }

/-- A luminance plane of two-byte rows whose bytes alternate 0, 255, 0, 255, ... -/
def checker_buf : VisionBuf :=
  { y := fun i => if i % 2 = 0 then 0 else 255, stride := 2 }

/-! ## Orchestrator state

The headers that declare `FrameMetadata`, `SensorInfo`, `SpectraCamera`, `CameraBuf`,
`SafeQueue`, `VisionIpcServer` and `VisionBuf` are not among the sources; the records below
carry the members that `camera_common.cc` reads and writes. Slot indices are naturals. -/

/-- Modelled from the spec: the record `FrameMetadata` (its declaration is absent):
frame identifier with `-1` as the unset sentinel, start-of-frame, end-of-exposure and
end-of-ISP-processing timestamps in nanoseconds, and the derived processing time in
seconds. -/
structure FrameMetadata where
  frame_id : Int
  timestamp_sof : Nat
  timestamp_eof : Nat
  timestamp_end_of_isp : Nat
  processing_time : ℚ
deriving DecidableEq

/-- Modelled from the spec: the element of a freshly allocated metadata array (the
declaration of `FrameMetadata` and its member initialisers are absent): the spec has every
`frame_id` start invalid. -/
def FrameMetadata.unset : FrameMetadata :=
  { frame_id := -1, timestamp_sof := 0, timestamp_eof := 0, timestamp_end_of_isp := 0,
    processing_time := 0 }

/-- The enumeration `VisionStreamType`, by its numeric value. -/
abbrev VisionStreamType := Nat

/-- The side-channel record `VisionIpcBufExtra` built by `acquire`. -/
structure VisionIpcBufExtra where
  frame_id : Int
  timestamp_sof : Nat
  timestamp_eof : Nat
deriving DecidableEq

/-- The output buffer that `vipc_server->get_buffer(type, idx)` returns, identified by the
stream and slot it was requested for. -/
structure YuvBufRef where
  type : VisionStreamType
  idx : Nat
deriving DecidableEq

/-- The calls `camera_common.cc` makes on the publishing service and on the output
buffers it hands out. -/
inductive VipcCall where
  | create_buffers_with_sizes (type : VisionStreamType) (num_buffers : Nat)
      (width height : Int) (size stride uv_offset : Nat)
  | get_buffer (type : VisionStreamType) (idx : Nat)
  | set_frame_id (buf : YuvBufRef) (frame_id : Int)
  | send (buf : YuvBufRef) (extra : VisionIpcBufExtra)
deriving DecidableEq

/-- The publishing service `VisionIpcServer`, represented by the calls it has received, in
order. -/
structure VisionIpcServer where
  calls : List VipcCall
deriving DecidableEq

/-- One more call received by the publishing service. -/
def VisionIpcServer.call (v : VisionIpcServer) (c : VipcCall) : VisionIpcServer :=
  { calls := v.calls ++ [c] }

/-- The calls made on the raw buffer of slot `i`: `camera_bufs_raw[i].allocate(len)`,
`camera_bufs_raw[i].init_cl(device_id, context)` and `camera_bufs_raw[i].free()`. -/
inductive RawCall where
  | allocate (i : Nat) (len : Int)
  | init_cl (i : Nat) (device_id context : Nat)
  | free (i : Nat)
deriving DecidableEq

/-- A raw sensor buffer of the pool, with the length it was allocated with. -/
structure RawBuf where
  len : Int
deriving DecidableEq

/-- The diagnostics written by `LOGD` and `LOGE`: format text and arguments. -/
inductive LogEntry where
  | LOGD (fmt : String) (args : List Int)
  | LOGE (fmt : String)
deriving DecidableEq

/-- Modelled from the spec: the free-slot queue `SafeQueue<int>` (its code is absent), a
first-in first-out queue of slot indices. The spec calls the queue capacity-bounded
without naming the bound; the bound is the parameter `capacity` of `push`. The locking is
not modelled. -/
structure SafeQueue where
  items : List Nat
deriving DecidableEq

/-- Modelled from the spec: `SafeQueue::push` on a queue bounded by `capacity`: below the
bound the value is appended at the back. The spec gives a push on a full queue no
outcome (it names neither a failure nor a way to make room), so there the push does not
complete, which is `none`. -/
def SafeQueue.push (capacity : Nat) (q : SafeQueue) (v : Nat) : Option SafeQueue :=
  if q.items.length < capacity then some { items := q.items ++ [v] } else none

/-- Modelled from the spec: `SafeQueue::try_pop(item, 0)`, the non-blocking pop: `none`
(the call returns false and leaves `item` alone) on an empty queue, otherwise the front
element and the rest of the queue. -/
def SafeQueue.try_pop (q : SafeQueue) : Option (Nat × SafeQueue) :=
  match q.items with
  | [] => none
  | v :: rest => some (v, { items := rest })

/-- The values of `SpectraOutputType` that `init` tells apart, and any other value. -/
inductive SpectraOutputType where
  | ISP_RAW_OUTPUT
  | ISP_IFE_PROCESSED
  | other (n : Nat)
deriving DecidableEq

/-- The members of `SensorInfo` that `init` reads. -/
structure SensorInfo where
  frame_width : Int
  frame_height : Int
  frame_stride : Int
  extra_height : Int
  hdr_offset : Int
deriving DecidableEq

/-- The members of `SpectraCamera` that `init` reads. -/
structure SpectraCamera where
  sensor : SensorInfo
  output_type : SpectraOutputType
  stride : Nat
  y_height : Nat
  uv_offset : Nat
deriving DecidableEq

/-- The object `CameraBuf`: its data members, the publishing service it points to, and the
traces of the calls made on the raw buffers and of the diagnostics. -/
structure CameraBuf where
  vipc_server : VisionIpcServer
  stream_type : VisionStreamType
  frame_buf_count : Nat
  is_raw : Bool
  frame_metadata : List FrameMetadata
  camera_bufs_raw : Option (List RawBuf)
  out_img_width : Int
  out_img_height : Int
  safe_queue : SafeQueue
  cur_buf_idx : Nat
  cur_frame_data : FrameMetadata
  cur_camera_buf : Option Nat
  cur_yuv_buf : Option YuvBufRef
  raw_calls : List RawCall
  log : List LogEntry
deriving DecidableEq

/-- The value of type `int` that holds the result `v` of 32-bit arithmetic: the integer
congruent to `v` modulo `2^32` between `-2^31` and `2^31 - 1`. -/
def to_int32 (v : Int) : Int :=
  (v + 2147483648) % 4294967296 - 2147483648

/-- The `size_t` an `int` converts to when it is passed as a length: its residue modulo
`2^64`. -/
def to_size_t (v : Int) : Int :=
  v % (U64 : Int)

/-- The method `CameraBuf::init`. `VIPC_BUFFER_COUNT` is a constant of an absent header
and is a parameter here; `frame_cnt` is the (non-negative) slot count. The product
`raw_frame_size` is computed in 32-bit arithmetic and stored in a `const int`, which
`allocate` receives as a `size_t` length; the product `nv12_size` is computed in 32-bit
unsigned arithmetic (an `int` constant times the 32-bit unsigned `cam->stride`) before it
is widened to `size_t`. -/
def CameraBuf.init (s : CameraBuf) (VIPC_BUFFER_COUNT : Nat) (device_id context : Nat)
    (cam : SpectraCamera) (v : VisionIpcServer) (frame_cnt : Nat) (type : VisionStreamType) :
    CameraBuf :=
  let s1 : CameraBuf :=
    { s with vipc_server := v, stream_type := type, frame_buf_count := frame_cnt }
  let sensor := cam.sensor
  let s2 : CameraBuf := { s1 with
    is_raw := decide (cam.output_type = SpectraOutputType.ISP_RAW_OUTPUT),
    frame_metadata := List.replicate s1.frame_buf_count FrameMetadata.unset }
  let s3 : CameraBuf :=
    if cam.output_type ≠ SpectraOutputType.ISP_IFE_PROCESSED then
      let raw_frame_size : Int :=
        to_int32 ((sensor.frame_height + sensor.extra_height) * sensor.frame_stride)
      { s2 with
        camera_bufs_raw :=
          some (List.replicate s2.frame_buf_count { len := to_size_t raw_frame_size }),
        raw_calls := s2.raw_calls ++ ((List.range s2.frame_buf_count).map
          (fun i => [RawCall.allocate i (to_size_t raw_frame_size),
            RawCall.init_cl i device_id context])).flatten,
        log := s2.log ++ [LogEntry.LOGD "allocated %d CL buffers" [(s2.frame_buf_count : Int)]] }
    else s2
  let s4 : CameraBuf := { s3 with
    out_img_width := sensor.frame_width,
    out_img_height :=
      if sensor.hdr_offset > 0 then Int.tdiv (sensor.frame_height - sensor.hdr_offset) 2
      else sensor.frame_height }
  let nv12_size : Nat := ((if s4.out_img_width ≤ 1344 then 2900 else 2346) * cam.stride) % U32
  { s4 with
    vipc_server := s4.vipc_server.call
      (VipcCall.create_buffers_with_sizes s4.stream_type VIPC_BUFFER_COUNT s4.out_img_width
        s4.out_img_height nv12_size cam.stride cam.uv_offset),
    log := s4.log ++ [LogEntry.LOGD "created %d YUV vipc buffers with size %dx%d"
      [(VIPC_BUFFER_COUNT : Int), (cam.stride : Int), (cam.y_height : Int)]] }

/-! ### Floating-point values

The expression `(double)(timestamp_end_of_isp - timestamp_eof) * 1e-9` and its store into
the single-precision member `processing_time` are computed in IEEE 754 binary arithmetic,
round to nearest, ties to even. A finite value is a pair of a significand and a
binary exponent. The magnitudes that occur (0, or between `10^-9` and `2^64 * 10^-9`) are
inside the normal range of both formats, so no overflow or gradual underflow is modelled. -/

/-- A binary floating-point value: `m * 2^e`. -/
structure BinFloat where
  m : Nat
  e : Int
deriving DecidableEq

/-- The rational number a floating-point value stands for. -/
def BinFloat.toRat (d : BinFloat) : ℚ :=
  (d.m : ℚ) * (2 : ℚ) ^ d.e

/-- The number of binary digits of `n`, for `n` below `2^fuel`. -/
def bit_length : Nat → Nat → Nat
  | 0, _ => 0
  | fuel + 1, n => if n = 0 then 0 else bit_length fuel (n / 2) + 1

/-- The quotient of `n` by `2^s` rounded to the nearest integer, ties to the even one. -/
def round_half_even (n s : Nat) : Nat :=
  if 2 * (n % 2 ^ s) < 2 ^ s then n / 2 ^ s
  else if 2 ^ s < 2 * (n % 2 ^ s) then n / 2 ^ s + 1
  else if (n / 2 ^ s) % 2 = 0 then n / 2 ^ s
  else n / 2 ^ s + 1

/-- Rounding of a value to a significand of `p` binary digits (53 for `double`, 24 for
`float`), for significands below `2^128`. -/
def round_to_bits (p : Nat) (d : BinFloat) : BinFloat :=
  if d.m < 2 ^ p then d
  else
    { m := round_half_even d.m (bit_length 128 d.m - p),
      e := d.e + ((bit_length 128 d.m - p : Nat) : Int) }

/-- The `double` constant `1e-9`: `0x1.12e0be826d695p-30`. -/
def double_1e_9 : BinFloat :=
  { m := 4835703278458517, e := -82 }

/-- The value stored by
`cur_frame_data.processing_time = (double)(timestamp_end_of_isp - timestamp_eof) * 1e-9`:
the difference is taken in unsigned 64-bit arithmetic and converted to `double`, the
product with the constant is rounded to `double`, and the store rounds to `float`. -/
def processing_time_float (md : FrameMetadata) : BinFloat :=
  let diff : Nat :=
    (((md.timestamp_end_of_isp : Int) - (md.timestamp_eof : Int)) % (U64 : Int)).toNat
  let d : BinFloat := round_to_bits 53 { m := diff, e := 0 }
  let prod : BinFloat := round_to_bits 53 { m := d.m * double_1e_9.m, e := d.e + double_1e_9.e }
  round_to_bits 24 prod

/-- The value of `processing_time` after the assignment of line 65, as the rational number
the stored `float` stands for. -/
def processing_time_of (md : FrameMetadata) : ℚ :=
  (processing_time_float md).toRat

/-- The method `CameraBuf::acquire`: `some (r, s)` is the return value `r` and the state
`s` left behind; `none` stands for an access outside the metadata array. -/
def CameraBuf.acquire (s : CameraBuf) : Option (Bool × CameraBuf) :=
  match s.safe_queue.try_pop with
  | none => some (false, s)
  | some (idx, q) =>
    let s1 := { s with safe_queue := q, cur_buf_idx := idx }
    match s1.frame_metadata[s1.cur_buf_idx]? with
    | none => none
    | some md =>
      if md.frame_id = -1 then
        some (false, { s1 with log := s1.log ++ [LogEntry.LOGE "no frame data? wtf"] })
      else
        let s2 := { s1 with cur_frame_data := md }
        let s3 :=
          if s2.camera_bufs_raw.isSome then { s2 with cur_camera_buf := some s2.cur_buf_idx }
          else s2
        let buf : YuvBufRef := { type := s3.stream_type, idx := s3.cur_buf_idx }
        let s4 := { s3 with
          cur_yuv_buf := some buf,
          vipc_server := s3.vipc_server.call (VipcCall.get_buffer s3.stream_type s3.cur_buf_idx) }
        let s5 := { s4 with
          cur_frame_data := { s4.cur_frame_data with
            processing_time := processing_time_of s4.cur_frame_data } }
        let extra : VisionIpcBufExtra :=
          { frame_id := s5.cur_frame_data.frame_id,
            timestamp_sof := s5.cur_frame_data.timestamp_sof,
            timestamp_eof := s5.cur_frame_data.timestamp_eof }
        let s6 := { s5 with
          vipc_server := s5.vipc_server.call
            (VipcCall.set_frame_id buf s5.cur_frame_data.frame_id) }
        some (true, { s6 with vipc_server := s6.vipc_server.call (VipcCall.send buf extra) })

/-- The method `CameraBuf::queue`, on a free-slot queue bounded by `capacity`; `none` when
the push does not complete. -/
def CameraBuf.queue (capacity : Nat) (s : CameraBuf) (buf_idx : Nat) : Option CameraBuf :=
  match s.safe_queue.push capacity buf_idx with
  | none => none
  | some q => some { s with safe_queue := q }

/-- A metadata record written by the producer. -/
def sample_frame (id : Int) : FrameMetadata :=
  { frame_id := id, timestamp_sof := 1000, timestamp_eof := 2000,
    timestamp_end_of_isp := 5000, processing_time := 0 }

/-- An orchestrator with four slots, of which slots 0, 1 and 2 hold frames 10, 11 and 12
and slot 3 is unwritten, with the given free-slot queue and raw pool. -/
def sample_state (queue : List Nat) (raw : Option (List RawBuf)) : CameraBuf :=
  { vipc_server := { calls := [] }, stream_type := 0, frame_buf_count := 4, is_raw := false,
    frame_metadata := [sample_frame 10, sample_frame 11, sample_frame 12, FrameMetadata.unset],
    camera_bufs_raw := raw, out_img_width := 1928, out_img_height := 1208,
    safe_queue := { items := queue }, cur_buf_idx := 0, cur_frame_data := FrameMetadata.unset,
    cur_camera_buf := none, cur_yuv_buf := none, raw_calls := [], log := [] }

/-- A sensor descriptor of 1928 x 1208 pixels with the given HDR row offset. -/
def sample_sensor (hdr_offset : Int) : SensorInfo :=
  { frame_width := 1928, frame_height := 1208, frame_stride := 2416, extra_height := 0,
    hdr_offset := hdr_offset }

/-- A camera with the given sensor, output type and output stride. -/
def sample_camera_of (sensor : SensorInfo) (output_type : SpectraOutputType) (stride : Nat) :
    SpectraCamera :=
  { sensor := sensor, output_type := output_type, stride := stride, y_height := 1216,
    uv_offset := 2490368 }

/-- A sensor descriptor of 70000 rows with a row stride of 70000 bytes. -/
def large_sensor : SensorInfo :=
  { frame_width := 1928, frame_height := 70000, frame_stride := 70000, extra_height := 0,
    hdr_offset := 0 }

/-- A camera with the given sensor, an output stride of 2048 and processed output. -/
def sample_camera (sensor : SensorInfo) : SpectraCamera :=
  { sensor := sensor, output_type := SpectraOutputType.ISP_IFE_PROCESSED, stride := 2048,
    y_height := 1216, uv_offset := 2490368 }

/-- The destructor `CameraBuf::~CameraBuf`: when `camera_bufs_raw != nullptr`, the call
`camera_bufs_raw[i].free()` for `i = 0, ..., frame_buf_count - 1`. -/
def CameraBuf.destructor (s : CameraBuf) : CameraBuf :=
  if s.camera_bufs_raw.isSome then
    { s with raw_calls := s.raw_calls ++ (List.range s.frame_buf_count).map RawCall.free }
  else s

/-! ## Device enumeration -/

/-- What a call of `open_v4l_by_name_and_index` leaves behind: the value returned, and the
`K` of the device node `/dev/v4l-subdevK` it opened, if it opened one. -/
structure V4lResult where
  ret : Int
  opened : Option Nat
deriving DecidableEq

/-- The loop of `open_v4l_by_name_and_index`, entered with the counter `v4l_index` and the
remaining match index `index`. The list holds what
`util::read_file("/sys/class/video4linux/v4l-subdev<N>/name")` yields for
`N = v4l_index, v4l_index + 1, ...`; past its end the read yields the empty string.
`sys_open K flags` is the value of `HANDLE_EINTR(open("/dev/v4l-subdev<K>", flags))`.
The test `v4l_name.find(name) == 0` holds when `name` is an initial segment of
`v4l_name`. -/
def open_v4l_scan (sys_open : Nat → Int → Int) (name : String) (flags : Int) :
    List String → Nat → Int → V4lResult
  | [], _, _ => { ret := -1, opened := none }
  | v4l_name :: rest, v4l_index, index =>
    if v4l_name.data.isEmpty then { ret := -1, opened := none }
    else if name.data.isPrefixOf v4l_name.data then
      if index = 0 then { ret := sys_open v4l_index flags, opened := some v4l_index }
      else open_v4l_scan sys_open name flags rest (v4l_index + 1) (index - 1)
    else open_v4l_scan sys_open name flags rest (v4l_index + 1) index

/-- The function `open_v4l_by_name_and_index`, run on the name files `sysfs` (the file of
`v4l-subdev<N>` at position `N`). -/
def open_v4l_by_name_and_index (sysfs : List String) (sys_open : Nat → Int → Int)
    (name : String) (index : Int) (flags : Int) : V4lResult :=
  open_v4l_scan sys_open name flags sysfs 0 index

/-- The enumerable device list: the non-empty names read for `v4l-subdev0`,
`v4l-subdev1`, ... up to the first empty name. -/
def enumerable_names (sysfs : List String) : List String :=
  sysfs.takeWhile (fun n => !n.data.isEmpty)

/-- The positions, counted from `start`, of the names of `names` that start with `name`,
in increasing order. -/
def matching_positions_from (name : String) (start : Nat) (names : List String) : List Nat :=
  ((names.enumFrom start).filter (fun p => name.data.isPrefixOf p.2.data)).map Prod.fst

/-- The positions in the enumerable device list of the names that start with `name`. -/
def matching_positions (name : String) (sysfs : List String) : List Nat :=
  matching_positions_from name 0 (enumerable_names sysfs)

/-- Name files of five sub-devices; the fourth is empty, which ends the enumeration. -/
def sample_sysfs : List String :=
  ["cam-sensor-0", "cam-isp", "cam-sensor-1", "", "cam-sensor-2"]

/-- A stand-in for `open`: the descriptor returned for `/dev/v4l-subdevK` is `K + 3`. -/
def sample_open (K : Nat) (_flags : Int) : Int :=
  (K : Int) + 3

/-! ## Sampled positions and further test planes -/

/-- The sampled positions `(y, x)` in scan order. -/
def sample_points (ae_xywh : Rect) (x_skip y_skip : Int) : List (Int × Int) :=
  ((List.range (step_count ae_xywh.h y_skip)).map (fun (i : Nat) =>
    (List.range (step_count ae_xywh.w x_skip)).map (fun (j : Nat) =>
      (ae_xywh.y + (i : Int) * y_skip, ae_xywh.x + (j : Int) * x_skip)))).flatten

/-- A luminance plane whose bytes are 0, 0, 255 and then 0. -/
def two_dark_one_bright_buf : VisionBuf :=
  { y := fun i => if i = 2 then 255 else 0, stride := 3 }

/-- A plane of 65536-byte rows: rows 0 to 65535 hold 0, every later row holds `v`. -/
def bright_tail_buf (v : Nat) : VisionBuf :=
  { y := fun i => if 4294967296 ≤ i then v else 0, stride := 65536 }

/-- A plane of 65536-byte rows: row 0 holds 0, every later row holds `v`. -/
def dark_head_buf (v : Nat) : VisionBuf :=
  { y := fun i => if i < 65536 then 0 else v, stride := 65536 }

end CameraCommon

namespace CameraCommon

/-! ## The sampling loops compute the histogram of `samples` -/

theorem step_count_of_nonpos (len step : Int) (h : len ≤ 0) : step_count len step = 0 := by
  simp [step_count, h]

theorem step_count_succ (len step : Int) (hlen : 0 < len) (hstep : 1 ≤ step) :
    step_count len step = step_count (len - step) step + 1 := by
  have hs : step ≠ 0 := by omega
  have e : len + step - 1 = (len - 1) + 1 * step := by ring
  have hdiv : (len + step - 1) / step = (len - 1) / step + 1 := by
    rw [e, Int.add_mul_ediv_right _ _ hs]
  unfold step_count
  rw [if_neg (by omega), hdiv]
  by_cases hle : len - step ≤ 0
  · rw [if_pos hle]
    have : (len - 1) / step = 0 := Int.ediv_eq_zero_of_lt (by omega) (by omega)
    rw [this]; rfl
  · rw [if_neg hle]
    have e2 : len - step + step - 1 = len - 1 := by ring
    rw [e2]
    have hnn : 0 ≤ (len - 1) / step := Int.ediv_nonneg (by omega) (by omega)
    omega

theorem row_loop_eq (b : VisionBuf) (ae : Rect) (x_skip y : Int) (hx : 1 ≤ x_skip) :
    ∀ (fuel : Nat) (x : Int) (st : LumStats), (ae.x + ae.w - x).toNat ≤ fuel →
      row_loop b ae x_skip y fuel x st =
        some (((List.range (step_count (ae.x + ae.w - x) x_skip)).map
          (fun (j : Nat) => b.lum y (x + (j : Int) * x_skip))).foldl LumStats.record st) := by
  intro fuel
  induction fuel with
  | zero =>
    intro x st hf
    have hge : ¬ x < ae.x + ae.w := by omega
    simp [row_loop, hge, step_count_of_nonpos _ _ (show ae.x + ae.w - x ≤ 0 by omega)]
  | succ n ih =>
    intro x st hf
    by_cases hlt : x < ae.x + ae.w
    · have hsc := step_count_succ (ae.x + ae.w - x) x_skip (by omega) hx
      have e : ae.x + ae.w - x - x_skip = ae.x + ae.w - (x + x_skip) := by ring
      rw [e] at hsc
      rw [row_loop, if_pos hlt, ih (x + x_skip) _ (by omega), hsc, List.range_succ_eq_map]
      simp only [List.map_cons, List.map_map, List.foldl_cons, Nat.cast_zero, zero_mul,
        add_zero]
      congr 3
      funext j
      simp only [Function.comp, Nat.succ_eq_add_one, Nat.cast_add, Nat.cast_one]
      congr 1
      ring
    · simp [row_loop, hlt, step_count_of_nonpos _ _ (show ae.x + ae.w - x ≤ 0 by omega)]

theorem row_loop_samples (b : VisionBuf) (ae : Rect) (x_skip y : Int) (hx : 1 ≤ x_skip)
    (st : LumStats) :
    row_loop b ae x_skip y ae.w.toNat ae.x st =
      some ((row_samples b ae x_skip y).foldl LumStats.record st) := by
  have h := row_loop_eq b ae x_skip y hx ae.w.toNat ae.x st (by simp)
  simpa [row_samples] using h

theorem frame_loop_eq (b : VisionBuf) (ae : Rect) (x_skip y_skip : Int) (hx : 1 ≤ x_skip)
    (hy : 1 ≤ y_skip) :
    ∀ (fuel : Nat) (y : Int) (st : LumStats), (ae.y + ae.h - y).toNat ≤ fuel →
      frame_loop b ae x_skip y_skip fuel y st =
        some ((((List.range (step_count (ae.y + ae.h - y) y_skip)).map
          (fun (i : Nat) => row_samples b ae x_skip (y + (i : Int) * y_skip))).flatten).foldl
            LumStats.record st) := by
  intro fuel
  induction fuel with
  | zero =>
    intro y st hf
    have hge : ¬ y < ae.y + ae.h := by omega
    simp [frame_loop, hge, step_count_of_nonpos _ _ (show ae.y + ae.h - y ≤ 0 by omega)]
  | succ n ih =>
    intro y st hf
    by_cases hlt : y < ae.y + ae.h
    · have hsc := step_count_succ (ae.y + ae.h - y) y_skip (by omega) hy
      have e : ae.y + ae.h - y - y_skip = ae.y + ae.h - (y + y_skip) := by ring
      rw [e] at hsc
      rw [frame_loop, if_pos hlt, row_loop_samples b ae x_skip y hx]
      simp only
      rw [ih (y + y_skip) _ (by omega), hsc, List.range_succ_eq_map]
      simp only [List.map_cons, List.map_map, List.flatten_cons, List.foldl_append,
        Nat.cast_zero, zero_mul, add_zero]
      congr 4
      funext i
      simp only [Function.comp, Nat.succ_eq_add_one, Nat.cast_add, Nat.cast_one]
      congr 1
      ring
    · simp [frame_loop, hlt, step_count_of_nonpos _ _ (show ae.y + ae.h - y ≤ 0 by omega)]

/-- Refinement: for positive steps the two sampling loops terminate and leave the
histogram obtained by recording the closed-form sample list in scan order. -/
theorem frame_loop_samples (b : VisionBuf) (ae : Rect) (x_skip y_skip : Int)
    (hx : 1 ≤ x_skip) (hy : 1 ≤ y_skip) :
    frame_loop b ae x_skip y_skip ae.h.toNat ae.y LumStats.zero =
      some ((samples b ae x_skip y_skip).foldl LumStats.record LumStats.zero) := by
  have h := frame_loop_eq b ae x_skip y_skip hx hy ae.h.toNat ae.y LumStats.zero (by simp)
  simpa [samples] using h

theorem foldl_record_total (l : List Nat) :
    (l.foldl LumStats.record LumStats.zero).lum_total = l.length % U32 := by
  induction l using List.reverseRecOn with
  | nil => simp [LumStats.zero, U32]
  | append_singleton l a ih =>
    rw [List.foldl_append]
    simp only [List.foldl_cons, List.foldl_nil, LumStats.record, ih, List.length_append,
      List.length_singleton, U32]
    omega

theorem foldl_record_binning (l : List Nat) (k : Nat) :
    (l.foldl LumStats.record LumStats.zero).lum_binning k = l.count k % U32 := by
  induction l using List.reverseRecOn with
  | nil => simp [LumStats.zero, U32]
  | append_singleton l a ih =>
    rw [List.foldl_append]
    simp only [List.foldl_cons, List.foldl_nil, LumStats.record, ih, List.count_append,
      List.count_singleton, U32]
    by_cases hk : k = a
    · subst hk
      simp
    · have hk2 : ¬ (a == k) = true := by simpa using fun h => hk h.symm
      simp [hk, hk2]

theorem lum_lt (b : VisionBuf) (y x : Int) : b.lum y x < 256 := by
  unfold VisionBuf.lum
  omega

theorem samples_lt (b : VisionBuf) (ae : Rect) (x_skip y_skip : Int) :
    ∀ s ∈ samples b ae x_skip y_skip, s < 256 := by
  intro s hs
  simp only [samples, row_samples, List.mem_flatten, List.mem_map, List.mem_range] at hs
  obtain ⟨r, ⟨i, _, rfl⟩, hs⟩ := hs
  simp only [List.mem_map, List.mem_range] at hs
  obtain ⟨j, _, rfl⟩ := hs
  exact lum_lt b _ _

theorem mul_lt_of_lt_step_count (len step : Int) (hstep : 1 ≤ step) (j : Nat)
    (hj : j < step_count len step) : (j : Int) * step < len := by
  unfold step_count at hj
  by_cases hle : len ≤ 0
  · simp [hle] at hj
  · rw [if_neg hle] at hj
    have h1 : ((j : Int) + 1) ≤ (len + step - 1) / step := by omega
    have h2 := (Int.le_ediv_iff_mul_le (show 0 < step by omega)).mp h1
    have h3 : ((j : Int) + 1) * step = (j : Int) * step + step := by ring
    omega

/-- Every sample is the pixel read at a point of the rectangle. -/
theorem samples_mem (b : VisionBuf) (ae : Rect) (x_skip y_skip : Int)
    (hx : 1 ≤ x_skip) (hy : 1 ≤ y_skip) :
    ∀ s ∈ samples b ae x_skip y_skip, ∃ x y : Int, ae.x ≤ x ∧ x < ae.x + ae.w ∧
      ae.y ≤ y ∧ y < ae.y + ae.h ∧ s = b.lum y x := by
  intro s hs
  simp only [samples, row_samples, List.mem_flatten, List.mem_map, List.mem_range] at hs
  obtain ⟨r, ⟨i, hi, rfl⟩, hs⟩ := hs
  simp only [List.mem_map, List.mem_range] at hs
  obtain ⟨j, hj, rfl⟩ := hs
  have h1 := mul_lt_of_lt_step_count _ _ hx j hj
  have h2 := mul_lt_of_lt_step_count _ _ hy i hi
  have h3 : 0 ≤ (j : Int) * x_skip := mul_nonneg (by omega) (by omega)
  have h4 : 0 ≤ (i : Int) * y_skip := mul_nonneg (by omega) (by omega)
  exact ⟨_, _, by omega, by omega, by omega, by omega, rfl⟩

theorem samples_length (b : VisionBuf) (ae : Rect) (x_skip y_skip : Int) :
    (samples b ae x_skip y_skip).length = step_count ae.h y_skip * step_count ae.w x_skip := by
  simp [samples, row_samples, List.length_flatten, Function.comp_def]

/-! ## The descending scan -/

/-- The scan over buckets `n-1, ..., 0`, entered with running count `g n`, where `g k` is
the running count after bucket `k` has been added: it stops at the greatest bucket whose
running count reaches `lum_total / 2`, and yields `-1` when there is none. -/
theorem median_scan_spec (bin : Nat → Nat) (total : Nat) (g : Nat → Nat) :
    ∀ n : Nat, (∀ k < n, g k = (g (k + 1) + bin k) % U32) →
      (median_scan bin total n (g n) = -1 ∧ ∀ k < n, g k < total / 2) ∨
      (∃ k < n, median_scan bin total n (g n) = (k : Int) ∧ total / 2 ≤ g k ∧
        ∀ j, k < j → j < n → g j < total / 2) := by
  intro n
  induction n with
  | zero => intro _; left; simp [median_scan]
  | succ n ih =>
    intro hg
    have hn := hg n (Nat.lt_succ_self n)
    rw [median_scan, ← hn]
    by_cases hstop : total / 2 ≤ g n
    · right
      refine ⟨n, Nat.lt_succ_self n, by simp [hstop], hstop, ?_⟩
      intro j h1 h2; omega
    · rw [if_neg hstop]
      rcases ih (fun k hk => hg k (Nat.lt_succ_of_lt hk)) with ⟨h1, h2⟩ | ⟨k, hk, h1, h2, h3⟩
      · left
        refine ⟨h1, fun k hk => ?_⟩
        rcases Nat.lt_succ_iff_lt_or_eq.mp hk with h | h
        · exact h2 k h
        · subst h; omega
      · right
        refine ⟨k, Nat.lt_succ_of_lt hk, h1, h2, fun j hj1 hj2 => ?_⟩
        rcases Nat.lt_succ_iff_lt_or_eq.mp hj2 with h | h
        · exact h3 j hj1 h
        · subst h; omega

theorem count_ge_succ (l : List Nat) (k : Nat) :
    count_ge l k = count_ge l (k + 1) + l.count k := by
  induction l with
  | nil => simp [count_ge]
  | cons a l ih =>
    simp only [count_ge, List.countP_cons, List.count_cons] at ih ⊢
    rw [ih]
    by_cases h1 : k + 1 ≤ a
    · have h2 : k ≤ a := by omega
      have h3 : ¬ (a == k) = true := by simp; omega
      simp [h1, h2, h3]
      omega
    · by_cases h2 : k = a
      · subst h2; simp
        omega
      · have h3 : ¬ k ≤ a := by omega
        have h4 : ¬ (a == k) = true := by simp; omega
        simp [h1, h3, h4]

theorem count_ge_zero (l : List Nat) : count_ge l 0 = l.length := by
  simp [count_ge]

theorem count_ge_of_lt (l : List Nat) (n : Nat) (h : ∀ s ∈ l, s < n) : count_ge l n = 0 := by
  simp only [count_ge, List.countP_eq_zero, decide_eq_true_eq]
  intro s hs
  have := h s hs
  omega

/-- What the function computes, for positive steps: the sampling terminates and the level
is the greatest bucket `k` in `0..255` at which the 32-bit running count of the samples of
luminance at least `k` reaches half of the 32-bit sample total. -/
theorem exposure_level_spec (b : VisionBuf) (ae : Rect) (x_skip y_skip : Int)
    (hx : 1 ≤ x_skip) (hy : 1 ≤ y_skip) :
    ∃ k : Nat, k ≤ 255 ∧ exposure_level b ae x_skip y_skip = some (k : Int) ∧
      ((samples b ae x_skip y_skip).length % U32) / 2 ≤
        count_ge (samples b ae x_skip y_skip) k % U32 ∧
      ∀ j, k < j → j ≤ 255 →
        count_ge (samples b ae x_skip y_skip) j % U32 <
          ((samples b ae x_skip y_skip).length % U32) / 2 := by
  set l := samples b ae x_skip y_skip with hl
  have hlt : ∀ s ∈ l, s < 256 := samples_lt b ae x_skip y_skip
  have hg : ∀ k < 256, count_ge l k % U32 =
      (count_ge l (k + 1) % U32 + l.count k % U32) % U32 := by
    intro k _
    rw [count_ge_succ l k]
    simp only [U32]
    omega
  have h256 : count_ge l 256 % U32 = 0 := by
    rw [count_ge_of_lt l 256 hlt]; rfl
  have hscan := median_scan_spec (fun k => l.count k % U32) (l.length % U32)
    (fun k => count_ge l k % U32) 256 hg
  simp only [h256] at hscan
  have hlevel : exposure_level b ae x_skip y_skip =
      some (median_scan (fun k => l.count k % U32) (l.length % U32) 256 0) := by
    unfold exposure_level
    rw [frame_loop_samples b ae x_skip y_skip hx hy]
    simp only [← hl]
    congr 2
    · funext k; exact foldl_record_binning l k
    · exact foldl_record_total l
  rcases hscan with ⟨_, h2⟩ | ⟨k, hk, h1, h2, h3⟩
  · exfalso
    have h0 := h2 0 (by norm_num)
    rw [count_ge_zero] at h0
    omega
  · exact ⟨k, by omega, by rw [hlevel, h1], h2, fun j hj1 hj2 => h3 j hj1 (by omega)⟩

theorem count_ge_uniform (l : List Nat) (v j : Nat) (h : ∀ s ∈ l, s = v) :
    count_ge l j = if j ≤ v then l.length else 0 := by
  by_cases hj : j ≤ v
  · rw [if_pos hj]
    simp only [count_ge, List.countP_eq_length, decide_eq_true_eq]
    intro s hs; rw [h s hs]; exact hj
  · rw [if_neg hj]
    simp only [count_ge, List.countP_eq_zero, decide_eq_true_eq]
    intro s hs; rw [h s hs]; exact hj

theorem length_eq_count_add_count (l : List Nat) (a c : Nat) (hac : a ≠ c)
    (h : ∀ s ∈ l, s = a ∨ s = c) : l.length = l.count a + l.count c := by
  induction l with
  | nil => simp
  | cons s l ih =>
    have ih2 := ih (fun t ht => h t (List.mem_cons_of_mem _ ht))
    rcases h s (List.mem_cons_self _ _) with hs | hs
    · subst hs
      have : ¬ (s == c) = true := by simpa using hac
      simp [List.count_cons, this, ih2]
      omega
    · subst hs
      have : ¬ (s == a) = true := by simpa using fun e => hac e.symm
      simp [List.count_cons, this, ih2]
      omega

theorem calculate_exposure_value_of_level (b : VisionBuf) (ae : Rect) (x_skip y_skip : Int)
    (k : Int) (h : exposure_level b ae x_skip y_skip = some k) :
    calculate_exposure_value b ae x_skip y_skip = some ((k : ℚ) / 256) := by
  simp [calculate_exposure_value, h]

/-! ## Claims about the exposure meter -/

/-- C1 (as stated, refuted): a region of one black pixel is uniform with `v = 0`, has
positive width and height and steps 1, yet the selected level is 255 and the value
returned is `255/256`, not `0/256`: with a single sample the threshold `lum_total / 2` is 0
and the scan stops at bucket 255. -/
theorem uniform_single_pixel_selects_255 :
    (0 : Int) < (Rect.mk 0 0 1 1).w ∧ (0 : Int) < (Rect.mk 0 0 1 1).h ∧
    (∀ x y : Int, 0 ≤ x → x < 0 + 1 → 0 ≤ y → y < 0 + 1 → (uniform_buf 0 1).lum y x = 0) ∧
    exposure_level (uniform_buf 0 1) ⟨0, 0, 1, 1⟩ 1 1 = some 255 ∧
    calculate_exposure_value (uniform_buf 0 1) ⟨0, 0, 1, 1⟩ 1 1 = some ((255 : ℚ) / 256) ∧
    calculate_exposure_value (uniform_buf 0 1) ⟨0, 0, 1, 1⟩ 1 1 ≠ some ((0 : ℚ) / 256) := by
  have hl : exposure_level (uniform_buf 0 1) ⟨0, 0, 1, 1⟩ 1 1 = some 255 := by decide
  have hv := calculate_exposure_value_of_level _ _ _ _ _ hl
  refine ⟨by decide, by decide, fun _ _ _ _ _ _ => rfl, hl, by simpa using hv, ?_⟩
  rw [hv]
  norm_num

/-- C1 (amended): for every `v` in `0..255`, every region and all steps `>= 1` for which
the 32-bit sample count is at least 2 (in particular whenever there are between 2 and
`2^32 - 1` samples): if every pixel read inside the region equals `v`, the selected level
is `v` and `calculate_exposure_value` returns `v/256`, whatever the steps. -/
theorem uniform_region_value (b : VisionBuf) (ae : Rect) (x_skip y_skip : Int) (v : Nat)
    (hv : v ≤ 255) (hx : 1 ≤ x_skip) (hy : 1 ≤ y_skip)
    (huni : ∀ x y : Int, ae.x ≤ x → x < ae.x + ae.w → ae.y ≤ y → y < ae.y + ae.h →
      b.lum y x = v)
    (hn : 2 ≤ (samples b ae x_skip y_skip).length % U32) :
    exposure_level b ae x_skip y_skip = some (v : Int) ∧
    calculate_exposure_value b ae x_skip y_skip = some ((v : ℚ) / 256) := by
  have hall : ∀ s ∈ samples b ae x_skip y_skip, s = v := by
    intro s hs
    obtain ⟨x, y, h1, h2, h3, h4, rfl⟩ := samples_mem b ae x_skip y_skip hx hy s hs
    exact huni x y h1 h2 h3 h4
  obtain ⟨k, hk, hlevel, hreach, hgreatest⟩ := exposure_level_spec b ae x_skip y_skip hx hy
  have hkv : k = v := by
    rcases Nat.lt_trichotomy k v with h | h | h
    · have := hgreatest v h hv
      rw [count_ge_uniform _ v v hall, if_pos (le_refl v)] at this
      omega
    · exact h
    · rw [count_ge_uniform _ v k hall, if_neg (by omega)] at hreach
      simp only [U32] at hn hreach
      omega
  subst hkv
  refine ⟨hlevel, ?_⟩
  have := calculate_exposure_value_of_level _ _ _ _ _ hlevel
  simpa using this

/-- C1 (amended), at a concrete input: a 2 x 2 region of bytes 7 gives level 7. -/
theorem uniform_region_value_witness :
    exposure_level (uniform_buf 7 4) ⟨0, 0, 2, 2⟩ 1 1 = some ((7 : Nat) : Int) ∧
    calculate_exposure_value (uniform_buf 7 4) ⟨0, 0, 2, 2⟩ 1 1 = some (((7 : Nat) : ℚ) / 256) :=
  uniform_region_value (uniform_buf 7 4) ⟨0, 0, 2, 2⟩ 1 1 7 (by decide) (by decide) (by decide)
    (fun _ _ _ _ _ _ => rfl) (by decide)

/-- C2: for every buffer, region and steps `>= 1` such that every sampled luminance is 0
or 255 and as many samples are 0 as are 255, the scan selects level 255 and
`calculate_exposure_value` returns `255/256`: the tie goes to the brighter bucket. -/
theorem half_dark_half_bright_selects_255 (b : VisionBuf) (ae : Rect) (x_skip y_skip : Int)
    (hx : 1 ≤ x_skip) (hy : 1 ≤ y_skip)
    (h01 : ∀ s ∈ samples b ae x_skip y_skip, s = 0 ∨ s = 255)
    (hhalf : (samples b ae x_skip y_skip).count 0 = (samples b ae x_skip y_skip).count 255) :
    exposure_level b ae x_skip y_skip = some 255 ∧
    calculate_exposure_value b ae x_skip y_skip = some ((255 : ℚ) / 256) := by
  obtain ⟨k, hk, hlevel, _, hgreatest⟩ := exposure_level_spec b ae x_skip y_skip hx hy
  have hlen := length_eq_count_add_count _ 0 255 (by decide) h01
  have h255 : count_ge (samples b ae x_skip y_skip) 255 =
      (samples b ae x_skip y_skip).count 255 := by
    rw [count_ge_succ, count_ge_of_lt _ 256 (samples_lt b ae x_skip y_skip)]
    simp
  have hk255 : k = 255 := by
    by_contra hne
    have := hgreatest 255 (by omega) (le_refl _)
    rw [h255, hlen, hhalf] at this
    simp only [U32] at this
    omega
  subst hk255
  refine ⟨by simpa using hlevel, ?_⟩
  have := calculate_exposure_value_of_level _ _ _ _ _ hlevel
  simpa using this

/-- C2 at a concrete input: a 2 x 2 region holding the bytes 0, 255, 0, 255. -/
theorem half_dark_half_bright_selects_255_witness :
    exposure_level checker_buf ⟨0, 0, 2, 2⟩ 1 1 = some 255 ∧
    calculate_exposure_value checker_buf ⟨0, 0, 2, 2⟩ 1 1 = some ((255 : ℚ) / 256) :=
  half_dark_half_bright_selects_255 checker_buf ⟨0, 0, 2, 2⟩ 1 1 (by decide) (by decide)
    (by decide) (by decide)

/-- C3: for every buffer, every region and all steps `>= 1` the sampling terminates and
the descending scan stops at a level in `0..255` (never at `-1`), so that the value
returned, `level / 256`, lies in `[0, 1)`. The 32-bit counters wrap consistently, so this
holds for every number of samples, below `2^32` or not. -/
theorem exposure_value_in_unit_interval (b : VisionBuf) (ae : Rect) (x_skip y_skip : Int)
    (hx : 1 ≤ x_skip) (hy : 1 ≤ y_skip) :
    ∃ lum_med : Int, exposure_level b ae x_skip y_skip = some lum_med ∧
      0 ≤ lum_med ∧ lum_med ≤ 255 ∧
      ∃ r : ℚ, calculate_exposure_value b ae x_skip y_skip = some r ∧
        r = (lum_med : ℚ) / 256 ∧ 0 ≤ r ∧ r < 1 := by
  obtain ⟨k, hk, hlevel, _, _⟩ := exposure_level_spec b ae x_skip y_skip hx hy
  refine ⟨(k : Int), hlevel, by omega, by omega, (k : ℚ) / 256, ?_, by simp, ?_, ?_⟩
  · have := calculate_exposure_value_of_level _ _ _ _ _ hlevel
    simpa using this
  · positivity
  · have hk2 : (k : ℚ) ≤ 255 := by exact_mod_cast hk
    rw [div_lt_one (by norm_num)]
    linarith

/-- C3 at a concrete input: a 3 x 2 region of a two-valued plane, steps 2 and 1. -/
theorem exposure_value_in_unit_interval_witness :
    ∃ lum_med : Int, exposure_level checker_buf ⟨0, 0, 3, 2⟩ 2 1 = some lum_med ∧
      0 ≤ lum_med ∧ lum_med ≤ 255 ∧
      ∃ r : ℚ, calculate_exposure_value checker_buf ⟨0, 0, 3, 2⟩ 2 1 = some r ∧
        r = (lum_med : ℚ) / 256 ∧ 0 ≤ r ∧ r < 1 :=
  exposure_value_in_unit_interval checker_buf ⟨0, 0, 3, 2⟩ 2 1 (by decide) (by decide)

/-- C4 (as stated, refuted): a 65536 x 65536 region of black pixels, steps 1, has `2^32`
samples; the 32-bit total wraps to 0, the threshold is 0 and the scan stops at 255,
although no sample has luminance `>= 255` while half the total is `2^31`. The greatest
level with at least half of the samples at or above it is 0. -/
theorem wrapped_total_selects_255 :
    (samples (uniform_buf 0 65536) ⟨0, 0, 65536, 65536⟩ 1 1).length = 4294967296 ∧
    exposure_level (uniform_buf 0 65536) ⟨0, 0, 65536, 65536⟩ 1 1 = some 255 ∧
    calculate_exposure_value (uniform_buf 0 65536) ⟨0, 0, 65536, 65536⟩ 1 1 =
      some ((255 : ℚ) / 256) ∧
    ¬ ((samples (uniform_buf 0 65536) ⟨0, 0, 65536, 65536⟩ 1 1).length / 2 ≤
      count_ge (samples (uniform_buf 0 65536) ⟨0, 0, 65536, 65536⟩ 1 1) 255) ∧
    (samples (uniform_buf 0 65536) ⟨0, 0, 65536, 65536⟩ 1 1).length / 2 ≤
      count_ge (samples (uniform_buf 0 65536) ⟨0, 0, 65536, 65536⟩ 1 1) 0 := by
  have hlen : (samples (uniform_buf 0 65536) ⟨0, 0, 65536, 65536⟩ 1 1).length
      = 4294967296 := by
    rw [samples_length]
    have : step_count 65536 1 = 65536 := by decide
    simp only [this]
  have hall : ∀ s ∈ samples (uniform_buf 0 65536) ⟨0, 0, 65536, 65536⟩ 1 1, s = 0 := by
    intro s hs
    obtain ⟨x, y, _, _, _, _, rfl⟩ := samples_mem _ _ 1 1 (by decide) (by decide) s hs
    rfl
  obtain ⟨k, hk, hlevel, _, hgreatest⟩ :=
    exposure_level_spec (uniform_buf 0 65536) ⟨0, 0, 65536, 65536⟩ 1 1 (by decide) (by decide)
  have hk255 : k = 255 := by
    by_contra hne
    have h0 : (4294967296 : Nat) % U32 / 2 = 0 := by decide
    have := hgreatest 255 (by omega) (le_refl _)
    rw [hlen, h0] at this
    exact Nat.not_lt_zero _ this
  subst hk255
  have hval := calculate_exposure_value_of_level _ _ _ _ _ hlevel
  refine ⟨hlen, by simpa using hlevel, by simpa using hval, ?_, ?_⟩
  · rw [count_ge_uniform _ 0 255 hall, hlen]
    decide
  · rw [count_ge_zero]
    omega

/-- C4 (amended): for every buffer, region and steps `>= 1` the level chosen is the
greatest `L` in `0..255` such that the number of samples with luminance `>= L`, counted
modulo `2^32`, is at least half (rounded down) of the number of samples counted modulo
`2^32`, and the value returned is `L/256`; when there are fewer than `2^32` samples, `L` is
the greatest level such that the number of samples with luminance `>= L` is at least
`floor(total / 2)`. -/
theorem level_is_greatest_reaching_half (b : VisionBuf) (ae : Rect) (x_skip y_skip : Int)
    (hx : 1 ≤ x_skip) (hy : 1 ≤ y_skip) :
    ∃ L : Nat, L ≤ 255 ∧ exposure_level b ae x_skip y_skip = some (L : Int) ∧
      calculate_exposure_value b ae x_skip y_skip = some ((L : ℚ) / 256) ∧
      ((samples b ae x_skip y_skip).length % U32) / 2 ≤
        count_ge (samples b ae x_skip y_skip) L % U32 ∧
      (∀ j, L < j → j ≤ 255 →
        count_ge (samples b ae x_skip y_skip) j % U32 <
          ((samples b ae x_skip y_skip).length % U32) / 2) ∧
      ((samples b ae x_skip y_skip).length < U32 →
        (samples b ae x_skip y_skip).length / 2 ≤ count_ge (samples b ae x_skip y_skip) L ∧
        ∀ j, L < j → j ≤ 255 →
          count_ge (samples b ae x_skip y_skip) j < (samples b ae x_skip y_skip).length / 2) := by
  obtain ⟨k, hk, hlevel, hreach, hgreatest⟩ := exposure_level_spec b ae x_skip y_skip hx hy
  have hval := calculate_exposure_value_of_level _ _ _ _ _ hlevel
  refine ⟨k, hk, hlevel, by simpa using hval, hreach, hgreatest, ?_⟩
  intro hsmall
  have hle : ∀ j, count_ge (samples b ae x_skip y_skip) j ≤
      (samples b ae x_skip y_skip).length := fun j => List.countP_le_length _
  have hmod : ∀ j, count_ge (samples b ae x_skip y_skip) j % U32 =
      count_ge (samples b ae x_skip y_skip) j :=
    fun j => Nat.mod_eq_of_lt (lt_of_le_of_lt (hle j) hsmall)
  rw [hmod, Nat.mod_eq_of_lt hsmall] at hreach
  refine ⟨hreach, fun j h1 h2 => ?_⟩
  have := hgreatest j h1 h2
  rwa [hmod, Nat.mod_eq_of_lt hsmall] at this

/-- C4 (amended) at a concrete input: a 3 x 2 region of a two-valued plane. -/
theorem level_is_greatest_reaching_half_witness :
    ∃ L : Nat, L ≤ 255 ∧ exposure_level checker_buf ⟨0, 0, 3, 2⟩ 1 1 = some (L : Int) ∧
      calculate_exposure_value checker_buf ⟨0, 0, 3, 2⟩ 1 1 = some ((L : ℚ) / 256) ∧
      ((samples checker_buf ⟨0, 0, 3, 2⟩ 1 1).length % U32) / 2 ≤
        count_ge (samples checker_buf ⟨0, 0, 3, 2⟩ 1 1) L % U32 ∧
      (∀ j, L < j → j ≤ 255 →
        count_ge (samples checker_buf ⟨0, 0, 3, 2⟩ 1 1) j % U32 <
          ((samples checker_buf ⟨0, 0, 3, 2⟩ 1 1).length % U32) / 2) ∧
      ((samples checker_buf ⟨0, 0, 3, 2⟩ 1 1).length < U32 →
        (samples checker_buf ⟨0, 0, 3, 2⟩ 1 1).length / 2 ≤
          count_ge (samples checker_buf ⟨0, 0, 3, 2⟩ 1 1) L ∧
        ∀ j, L < j → j ≤ 255 →
          count_ge (samples checker_buf ⟨0, 0, 3, 2⟩ 1 1) j <
            (samples checker_buf ⟨0, 0, 3, 2⟩ 1 1).length / 2) :=
  level_is_greatest_reaching_half checker_buf ⟨0, 0, 3, 2⟩ 1 1 (by decide) (by decide)

/-! ## Claims about `acquire` and `queue` -/

theorem try_pop_cons (q : SafeQueue) (i : Nat) (rest : List Nat) (h : q.items = i :: rest) :
    q.try_pop = some (i, { items := rest }) := by
  simp [SafeQueue.try_pop, h]

/-- C5: for every orchestrator state whose free-slot queue is empty, `acquire` returns
false and leaves the state as it was: no call reaches the publishing service (no buffer
requested, nothing published), and the current-frame snapshot, the current raw and output
buffer references, the metadata array and the empty queue are unchanged. -/
theorem acquire_on_empty_queue (s : CameraBuf) (h : s.safe_queue.items = []) :
    s.acquire = some (false, s) := by
  simp [CameraBuf.acquire, SafeQueue.try_pop, h]

/-- C5 at a concrete input: four slots, nothing queued. -/
theorem acquire_on_empty_queue_witness :
    (sample_state [] none).acquire = some (false, sample_state [] none) :=
  acquire_on_empty_queue (sample_state [] none) rfl

/-- C6: for every state whose free-slot queue has head slot `i` with
`frame_metadata[i].frame_id == -1`, `acquire` returns false; the publishing service
receives no call (no buffer retrieved, none published), the current-frame snapshot and the
current raw and output buffer references are unchanged, and the slot is not requeued: the
queue left behind is the old queue without its head. Only the queue, `cur_buf_idx` and the
diagnostics differ from the state before. -/
theorem acquire_on_unwritten_slot (s : CameraBuf) (i : Nat) (rest : List Nat)
    (md : FrameMetadata) (hq : s.safe_queue.items = i :: rest)
    (hmd : s.frame_metadata[i]? = some md) (hid : md.frame_id = -1) :
    ∃ s1 : CameraBuf, s.acquire = some (false, s1) ∧
      s1.vipc_server = s.vipc_server ∧
      s1.cur_frame_data = s.cur_frame_data ∧
      s1.cur_camera_buf = s.cur_camera_buf ∧
      s1.cur_yuv_buf = s.cur_yuv_buf ∧
      s1.safe_queue.items = rest ∧
      s1.frame_metadata = s.frame_metadata ∧
      s1 = { s with
        safe_queue := { items := rest }, cur_buf_idx := i,
        log := s.log ++ [LogEntry.LOGE "no frame data? wtf"] } := by
  refine ⟨{ s with
    safe_queue := { items := rest }, cur_buf_idx := i,
    log := s.log ++ [LogEntry.LOGE "no frame data? wtf"] }, ?_,
    rfl, rfl, rfl, rfl, rfl, rfl, rfl⟩
  simp [CameraBuf.acquire, try_pop_cons _ i rest hq, hmd, hid]

/-- C6 at a concrete input: the unwritten slot 3 is at the head of the queue `[3, 1]`. -/
theorem acquire_on_unwritten_slot_witness :
    ∃ s1 : CameraBuf, (sample_state [3, 1] none).acquire = some (false, s1) ∧
      s1.vipc_server = (sample_state [3, 1] none).vipc_server ∧
      s1.cur_frame_data = (sample_state [3, 1] none).cur_frame_data ∧
      s1.cur_camera_buf = (sample_state [3, 1] none).cur_camera_buf ∧
      s1.cur_yuv_buf = (sample_state [3, 1] none).cur_yuv_buf ∧
      s1.safe_queue.items = [1] ∧
      s1.frame_metadata = (sample_state [3, 1] none).frame_metadata ∧
      s1 = { (sample_state [3, 1] none) with
        safe_queue := { items := [1] }, cur_buf_idx := 3,
        log := (sample_state [3, 1] none).log ++ [LogEntry.LOGE "no frame data? wtf"] } :=
  acquire_on_unwritten_slot (sample_state [3, 1] none) 3 [1] FrameMetadata.unset rfl rfl rfl

/-- C7: for every state whose free-slot queue has head slot `i` with
`frame_metadata[i].frame_id != -1`, `acquire` returns true; the publishing service receives
exactly the request for the output buffer of `(stream_type, i)`, the stamping of that
buffer with `frame_metadata[i].frame_id` and one publication of that buffer with the
side-channel record made of `frame_id`, `timestamp_sof` and `timestamp_eof` of
`frame_metadata[i]`; the current-frame snapshot is `frame_metadata[i]` with only
`processing_time` recomputed; when a raw pool exists the current raw buffer is that of
slot `i`. -/
theorem acquire_on_valid_slot (s : CameraBuf) (i : Nat) (rest : List Nat)
    (md : FrameMetadata) (hq : s.safe_queue.items = i :: rest)
    (hmd : s.frame_metadata[i]? = some md) (hid : md.frame_id ≠ -1) :
    ∃ s1 : CameraBuf, s.acquire = some (true, s1) ∧
      s1.vipc_server.calls = s.vipc_server.calls ++
        [VipcCall.get_buffer s.stream_type i,
         VipcCall.set_frame_id { type := s.stream_type, idx := i } md.frame_id,
         VipcCall.send { type := s.stream_type, idx := i }
           { frame_id := md.frame_id, timestamp_sof := md.timestamp_sof,
             timestamp_eof := md.timestamp_eof }] ∧
      s1.cur_yuv_buf = some { type := s.stream_type, idx := i } ∧
      s1.cur_frame_data = { md with processing_time := processing_time_of md } ∧
      s1.cur_frame_data.frame_id = md.frame_id ∧
      s1.cur_frame_data.timestamp_sof = md.timestamp_sof ∧
      s1.cur_frame_data.timestamp_eof = md.timestamp_eof ∧
      s1.cur_frame_data.timestamp_end_of_isp = md.timestamp_end_of_isp ∧
      (s.camera_bufs_raw.isSome = true → s1.cur_camera_buf = some i) ∧
      (s.camera_bufs_raw = none → s1.cur_camera_buf = s.cur_camera_buf) ∧
      s1.cur_buf_idx = i ∧
      s1.safe_queue.items = rest ∧
      s1.frame_metadata = s.frame_metadata := by
  cases hraw : s.camera_bufs_raw with
  | none =>
    simp [CameraBuf.acquire, try_pop_cons _ i rest hq, hmd, hid, hraw, VisionIpcServer.call]
  | some pool =>
    simp [CameraBuf.acquire, try_pop_cons _ i rest hq, hmd, hid, hraw, VisionIpcServer.call]

/-- C7 at a concrete input: slot 1, holding frame 11, heads the queue and a raw pool
exists. -/
theorem acquire_on_valid_slot_witness :
    ∃ s1 : CameraBuf,
      (sample_state [1, 2] (some [⟨64⟩, ⟨64⟩, ⟨64⟩, ⟨64⟩])).acquire = some (true, s1) ∧
      s1.vipc_server.calls = [] ++
        [VipcCall.get_buffer 0 1,
         VipcCall.set_frame_id { type := 0, idx := 1 } 11,
         VipcCall.send { type := 0, idx := 1 }
           { frame_id := 11, timestamp_sof := 1000, timestamp_eof := 2000 }] ∧
      s1.cur_yuv_buf = some { type := 0, idx := 1 } ∧
      s1.cur_frame_data =
        { (sample_frame 11) with processing_time := processing_time_of (sample_frame 11) } ∧
      s1.cur_frame_data.frame_id = 11 ∧
      s1.cur_frame_data.timestamp_sof = 1000 ∧
      s1.cur_frame_data.timestamp_eof = 2000 ∧
      s1.cur_frame_data.timestamp_end_of_isp = 5000 ∧
      ((some [(⟨64⟩ : RawBuf), ⟨64⟩, ⟨64⟩, ⟨64⟩]).isSome = true → s1.cur_camera_buf = some 1) ∧
      (some [(⟨64⟩ : RawBuf), ⟨64⟩, ⟨64⟩, ⟨64⟩] = none → s1.cur_camera_buf = none) ∧
      s1.cur_buf_idx = 1 ∧
      s1.safe_queue.items = [2] ∧
      s1.frame_metadata =
        [sample_frame 10, sample_frame 11, sample_frame 12, FrameMetadata.unset] :=
  acquire_on_valid_slot (sample_state [1, 2] (some [⟨64⟩, ⟨64⟩, ⟨64⟩, ⟨64⟩])) 1 [2]
    (sample_frame 11) rfl rfl (by decide)

/-- C9: for every sensor descriptor with `hdr_offset <= frame_height` (so in particular
with `0 <= hdr_offset <= frame_height`), `init` sets the usable output width to
`frame_width` and the usable output height to `frame_height` when `hdr_offset == 0`, and to
`(frame_height - hdr_offset) / 2` in truncating integer division when `hdr_offset > 0`
(the quotient `q` with `2q <= frame_height - hdr_offset < 2q + 2`). -/
theorem init_usable_dimensions (s : CameraBuf) (VIPC_BUFFER_COUNT device_id context : Nat)
    (cam : SpectraCamera) (v : VisionIpcServer) (frame_cnt : Nat) (type : VisionStreamType)
    (h1 : cam.sensor.hdr_offset ≤ cam.sensor.frame_height) :
    (s.init VIPC_BUFFER_COUNT device_id context cam v frame_cnt type).out_img_width =
      cam.sensor.frame_width ∧
    (cam.sensor.hdr_offset = 0 →
      (s.init VIPC_BUFFER_COUNT device_id context cam v frame_cnt type).out_img_height =
        cam.sensor.frame_height) ∧
    (0 < cam.sensor.hdr_offset →
      (s.init VIPC_BUFFER_COUNT device_id context cam v frame_cnt type).out_img_height =
        Int.tdiv (cam.sensor.frame_height - cam.sensor.hdr_offset) 2 ∧
      2 * (s.init VIPC_BUFFER_COUNT device_id context cam v frame_cnt type).out_img_height ≤
        cam.sensor.frame_height - cam.sensor.hdr_offset ∧
      cam.sensor.frame_height - cam.sensor.hdr_offset <
        2 * (s.init VIPC_BUFFER_COUNT device_id context cam v frame_cnt type).out_img_height
          + 2) := by
  have hh : (s.init VIPC_BUFFER_COUNT device_id context cam v frame_cnt type).out_img_height =
      if cam.sensor.hdr_offset > 0 then
        Int.tdiv (cam.sensor.frame_height - cam.sensor.hdr_offset) 2
      else cam.sensor.frame_height := by
    unfold CameraBuf.init
    split <;> rfl
  have hw : (s.init VIPC_BUFFER_COUNT device_id context cam v frame_cnt type).out_img_width =
      cam.sensor.frame_width := by
    unfold CameraBuf.init
    split <;> rfl
  refine ⟨hw, fun hz => ?_, fun hpos => ?_⟩
  · rw [hh, if_neg (by omega)]
  · rw [hh, if_pos hpos]
    have hd : Int.tdiv (cam.sensor.frame_height - cam.sensor.hdr_offset) 2 =
        (cam.sensor.frame_height - cam.sensor.hdr_offset) / 2 :=
      Int.tdiv_eq_ediv (by omega) (by decide)
    rw [hd]
    refine ⟨rfl, by omega, by omega⟩

/-- C9 at a concrete input: a sensor of height 1208 with HDR offset 7 gives height 600. -/
theorem init_usable_dimensions_witness :
    ((sample_state [] none).init 18 0 0 (sample_camera (sample_sensor 7)) ⟨[]⟩ 4 2).out_img_width
      = (sample_camera (sample_sensor 7)).sensor.frame_width ∧
    ((sample_camera (sample_sensor 7)).sensor.hdr_offset = 0 →
      ((sample_state [] none).init 18 0 0 (sample_camera (sample_sensor 7)) ⟨[]⟩ 4 2).out_img_height
        = (sample_camera (sample_sensor 7)).sensor.frame_height) ∧
    (0 < (sample_camera (sample_sensor 7)).sensor.hdr_offset →
      ((sample_state [] none).init 18 0 0 (sample_camera (sample_sensor 7)) ⟨[]⟩ 4 2).out_img_height
        = Int.tdiv ((sample_camera (sample_sensor 7)).sensor.frame_height -
            (sample_camera (sample_sensor 7)).sensor.hdr_offset) 2 ∧
      2 * ((sample_state [] none).init 18 0 0 (sample_camera (sample_sensor 7)) ⟨[]⟩ 4
          2).out_img_height ≤
        (sample_camera (sample_sensor 7)).sensor.frame_height -
          (sample_camera (sample_sensor 7)).sensor.hdr_offset ∧
      (sample_camera (sample_sensor 7)).sensor.frame_height -
          (sample_camera (sample_sensor 7)).sensor.hdr_offset <
        2 * ((sample_state [] none).init 18 0 0 (sample_camera (sample_sensor 7)) ⟨[]⟩ 4
          2).out_img_height + 2) :=
  init_usable_dimensions (sample_state [] none) 18 0 0 (sample_camera (sample_sensor 7)) ⟨[]⟩ 4 2
    (by decide)

theorem init_vipc_calls (s : CameraBuf) (VIPC_BUFFER_COUNT device_id context : Nat)
    (cam : SpectraCamera) (v : VisionIpcServer) (frame_cnt : Nat) (type : VisionStreamType) :
    (s.init VIPC_BUFFER_COUNT device_id context cam v frame_cnt type).vipc_server.calls =
      v.calls ++ [VipcCall.create_buffers_with_sizes type VIPC_BUFFER_COUNT
        cam.sensor.frame_width
        (if cam.sensor.hdr_offset > 0 then
          Int.tdiv (cam.sensor.frame_height - cam.sensor.hdr_offset) 2
         else cam.sensor.frame_height)
        (((if cam.sensor.frame_width ≤ 1344 then 2900 else 2346) * cam.stride) % U32)
        cam.stride cam.uv_offset] := by
  unfold CameraBuf.init
  by_cases hp : cam.output_type ≠ SpectraOutputType.ISP_IFE_PROCESSED <;>
    simp [VisionIpcServer.call, hp]

/-- C10 (as stated, refuted): with an output stride of 2000000 and a usable width of 1928
(above 1344), the byte size in the creation request is 397032704, not
`2346 * 2000000 = 4692000000`: the product is computed in 32-bit unsigned arithmetic. -/
theorem init_output_size_wraps :
    (sample_camera_of (sample_sensor 0) SpectraOutputType.ISP_IFE_PROCESSED
        2000000).sensor.frame_width = 1928 ∧
    ((sample_state [] none).init 18 0 0
        (sample_camera_of (sample_sensor 0) SpectraOutputType.ISP_IFE_PROCESSED 2000000)
        ⟨[]⟩ 4 2).vipc_server.calls =
      [VipcCall.create_buffers_with_sizes 2 18 1928 1208 397032704 2000000 2490368] ∧
    (397032704 : Nat) ≠ 2346 * 2000000 := by
  refine ⟨by decide, by decide, by decide⟩

/-- C10 (amended): for every sensor and camera descriptor with output stride `S`, `init`
sends the publishing service exactly one call, the output-pool creation request, carrying
width `frame_width`, the usable output height, stride `S`, the camera's uv offset, and as
byte size the product of `S` with 2900 (usable width at most 1344) or with 2346
(otherwise), reduced modulo `2^32`; whenever that product is below `2^32` the byte size
is `2900 * S`, respectively `2346 * S`, so a `frame_width` of 1280 gives `2900 * S` for
such `S`. The byte size depends on the stride and on the side of the width threshold
only, not on the height or on a width-by-height product. -/
theorem init_creates_output_pool (s : CameraBuf) (VIPC_BUFFER_COUNT device_id context : Nat)
    (cam : SpectraCamera) (v : VisionIpcServer) (frame_cnt : Nat) (type : VisionStreamType) :
    (s.init VIPC_BUFFER_COUNT device_id context cam v frame_cnt type).vipc_server.calls =
      v.calls ++ [VipcCall.create_buffers_with_sizes type VIPC_BUFFER_COUNT
        cam.sensor.frame_width
        (if cam.sensor.hdr_offset > 0 then
          Int.tdiv (cam.sensor.frame_height - cam.sensor.hdr_offset) 2
         else cam.sensor.frame_height)
        (if cam.sensor.frame_width ≤ 1344 then (2900 * cam.stride) % 4294967296
         else (2346 * cam.stride) % 4294967296)
        cam.stride cam.uv_offset] ∧
    (cam.sensor.frame_width ≤ 1344 → 2900 * cam.stride < 4294967296 →
      (s.init VIPC_BUFFER_COUNT device_id context cam v frame_cnt type).vipc_server.calls =
        v.calls ++ [VipcCall.create_buffers_with_sizes type VIPC_BUFFER_COUNT
          cam.sensor.frame_width
          (s.init VIPC_BUFFER_COUNT device_id context cam v frame_cnt type).out_img_height
          (2900 * cam.stride) cam.stride cam.uv_offset]) ∧
    (1344 < cam.sensor.frame_width → 2346 * cam.stride < 4294967296 →
      (s.init VIPC_BUFFER_COUNT device_id context cam v frame_cnt type).vipc_server.calls =
        v.calls ++ [VipcCall.create_buffers_with_sizes type VIPC_BUFFER_COUNT
          cam.sensor.frame_width
          (s.init VIPC_BUFFER_COUNT device_id context cam v frame_cnt type).out_img_height
          (2346 * cam.stride) cam.stride cam.uv_offset]) ∧
    (cam.sensor.frame_width = 1280 → 2900 * cam.stride < 4294967296 →
      (s.init VIPC_BUFFER_COUNT device_id context cam v frame_cnt type).vipc_server.calls =
        v.calls ++ [VipcCall.create_buffers_with_sizes type VIPC_BUFFER_COUNT 1280
          (s.init VIPC_BUFFER_COUNT device_id context cam v frame_cnt type).out_img_height
          (2900 * cam.stride) cam.stride cam.uv_offset]) := by
  have hcalls := init_vipc_calls s VIPC_BUFFER_COUNT device_id context cam v frame_cnt type
  have hh : (s.init VIPC_BUFFER_COUNT device_id context cam v frame_cnt type).out_img_height =
      if cam.sensor.hdr_offset > 0 then
        Int.tdiv (cam.sensor.frame_height - cam.sensor.hdr_offset) 2
      else cam.sensor.frame_height := by
    unfold CameraBuf.init
    split <;> rfl
  refine ⟨?_, fun hw hs => ?_, fun hw hs => ?_, fun hw hs => ?_⟩
  · rw [hcalls]
    by_cases hw : cam.sensor.frame_width ≤ 1344 <;> simp [hw, U32]
  · have e : ((if cam.sensor.frame_width ≤ 1344 then 2900 else 2346) * cam.stride) % U32 =
        2900 * cam.stride := by
      rw [if_pos hw]; exact Nat.mod_eq_of_lt hs
    rw [hcalls, hh, e]
  · have e : ((if cam.sensor.frame_width ≤ 1344 then 2900 else 2346) * cam.stride) % U32 =
        2346 * cam.stride := by
      rw [if_neg (by omega)]; exact Nat.mod_eq_of_lt hs
    rw [hcalls, hh, e]
  · have e : ((if cam.sensor.frame_width ≤ 1344 then 2900 else 2346) * cam.stride) % U32 =
        2900 * cam.stride := by
      rw [if_pos (by omega)]; exact Nat.mod_eq_of_lt hs
    rw [hcalls, hh, e, hw]

theorem init_frame_metadata (s : CameraBuf) (VIPC_BUFFER_COUNT device_id context : Nat)
    (cam : SpectraCamera) (v : VisionIpcServer) (frame_cnt : Nat) (type : VisionStreamType) :
    (s.init VIPC_BUFFER_COUNT device_id context cam v frame_cnt type).frame_metadata =
      List.replicate frame_cnt FrameMetadata.unset := by
  unfold CameraBuf.init
  split <;> rfl

theorem init_safe_queue (s : CameraBuf) (VIPC_BUFFER_COUNT device_id context : Nat)
    (cam : SpectraCamera) (v : VisionIpcServer) (frame_cnt : Nat) (type : VisionStreamType) :
    (s.init VIPC_BUFFER_COUNT device_id context cam v frame_cnt type).safe_queue =
      s.safe_queue := by
  unfold CameraBuf.init
  split <;> rfl

theorem init_num_buffers (s : CameraBuf) (VIPC_BUFFER_COUNT device_id context : Nat)
    (cam : SpectraCamera) (v : VisionIpcServer) (frame_cnt : Nat) (type : VisionStreamType) :
    ∃ (width height : Int) (size stride uv_offset : Nat),
      (s.init VIPC_BUFFER_COUNT device_id context cam v frame_cnt type).vipc_server.calls =
        v.calls ++ [VipcCall.create_buffers_with_sizes type VIPC_BUFFER_COUNT width height size
          stride uv_offset] := by
  unfold CameraBuf.init
  by_cases hp : cam.output_type ≠ SpectraOutputType.ISP_IFE_PROCESSED <;>
    simp [VisionIpcServer.call, hp]

theorem init_raw_of_ne (s : CameraBuf) (VIPC_BUFFER_COUNT device_id context : Nat)
    (cam : SpectraCamera) (v : VisionIpcServer) (frame_cnt : Nat) (type : VisionStreamType)
    (h : cam.output_type ≠ SpectraOutputType.ISP_IFE_PROCESSED) :
    (s.init VIPC_BUFFER_COUNT device_id context cam v frame_cnt type).camera_bufs_raw =
      some (List.replicate frame_cnt
        { len := to_size_t (to_int32 ((cam.sensor.frame_height + cam.sensor.extra_height) *
            cam.sensor.frame_stride)) }) ∧
    (s.init VIPC_BUFFER_COUNT device_id context cam v frame_cnt type).raw_calls =
      s.raw_calls ++ ((List.range frame_cnt).map (fun i =>
        [RawCall.allocate i
            (to_size_t (to_int32 ((cam.sensor.frame_height + cam.sensor.extra_height) *
              cam.sensor.frame_stride))),
          RawCall.init_cl i device_id context])).flatten := by
  unfold CameraBuf.init
  simp [h]

theorem to_size_t_to_int32_of_small (v : Int) (h0 : 0 ≤ v) (h1 : v < 2147483648) :
    to_size_t (to_int32 v) = v := by
  unfold to_size_t to_int32
  simp only [U64]
  omega

theorem init_raw_of_eq (s : CameraBuf) (VIPC_BUFFER_COUNT device_id context : Nat)
    (cam : SpectraCamera) (v : VisionIpcServer) (frame_cnt : Nat) (type : VisionStreamType)
    (h : cam.output_type = SpectraOutputType.ISP_IFE_PROCESSED) :
    (s.init VIPC_BUFFER_COUNT device_id context cam v frame_cnt type).camera_bufs_raw =
      s.camera_bufs_raw ∧
    (s.init VIPC_BUFFER_COUNT device_id context cam v frame_cnt type).raw_calls =
      s.raw_calls := by
  unfold CameraBuf.init
  simp [h]

theorem count_allocate_calls (size : Int) (device_id context : Nat) (i : Nat) :
    ∀ n : Nat, (((List.range n).map (fun k =>
        [RawCall.allocate k size, RawCall.init_cl k device_id context])).flatten).count
          (RawCall.allocate i size) = if i < n then 1 else 0 := by
  intro n
  induction n with
  | zero => simp
  | succ n ih =>
    rw [List.range_succ, List.map_append, List.flatten_append, List.count_append, ih]
    by_cases h1 : i < n
    · have h2 : ¬ n = i := by omega
      simp [h1, h2, Nat.lt_succ_of_lt h1, List.count_cons]
    · by_cases h2 : n = i
      · subst h2; simp [List.count_cons]
      · have h3 : ¬ i < n + 1 := by omega
        simp [h1, h2, h3, List.count_cons]

theorem count_init_cl_calls (size : Int) (device_id context : Nat) (i : Nat) :
    ∀ n : Nat, (((List.range n).map (fun k =>
        [RawCall.allocate k size, RawCall.init_cl k device_id context])).flatten).count
          (RawCall.init_cl i device_id context) = if i < n then 1 else 0 := by
  intro n
  induction n with
  | zero => simp
  | succ n ih =>
    rw [List.range_succ, List.map_append, List.flatten_append, List.count_append, ih]
    by_cases h1 : i < n
    · have h2 : ¬ n = i := by omega
      simp [h1, h2, Nat.lt_succ_of_lt h1, List.count_cons]
    · by_cases h2 : n = i
      · subst h2; simp [List.count_cons]
      · have h3 : ¬ i < n + 1 := by omega
        simp [h1, h2, h3, List.count_cons]

theorem count_free_calls (i : Nat) :
    ∀ n : Nat, ((List.range n).map RawCall.free).count (RawCall.free i) =
      if i < n then 1 else 0 := by
  intro n
  induction n with
  | zero => simp
  | succ n ih =>
    rw [List.range_succ, List.map_append, List.count_append, ih]
    by_cases h1 : i < n
    · have h2 : ¬ n = i := by omega
      simp [h1, h2, Nat.lt_succ_of_lt h1, List.count_cons]
    · by_cases h2 : n = i
      · subst h2; simp [List.count_cons]
      · have h3 : ¬ i < n + 1 := by omega
        simp [h1, h2, h3, List.count_cons]

/-- C11: after `init` with slot count `n` the metadata array has exactly `n` entries and
the `frame_id` of every entry is the invalid sentinel `-1`; hence `acquire` on a queue
whose head is any slot `i < n`, not yet written by the producer, returns false and sends
nothing to the publishing service. -/
theorem init_metadata_all_invalid (s : CameraBuf) (VIPC_BUFFER_COUNT device_id context : Nat)
    (cam : SpectraCamera) (v : VisionIpcServer) (n : Nat) (type : VisionStreamType) :
    (s.init VIPC_BUFFER_COUNT device_id context cam v n type).frame_metadata.length = n ∧
    (∀ md ∈ (s.init VIPC_BUFFER_COUNT device_id context cam v n type).frame_metadata,
      md.frame_id = -1) ∧
    (∀ i, i < n → ∃ md,
      (s.init VIPC_BUFFER_COUNT device_id context cam v n type).frame_metadata[i]? = some md ∧
      md.frame_id = -1) ∧
    (∀ i rest, i < n →
      (s.init VIPC_BUFFER_COUNT device_id context cam v n type).safe_queue.items = i :: rest →
      ∃ s1 : CameraBuf,
        (s.init VIPC_BUFFER_COUNT device_id context cam v n type).acquire = some (false, s1) ∧
        s1.vipc_server = (s.init VIPC_BUFFER_COUNT device_id context cam v n type).vipc_server)
    := by
  have hmeta := init_frame_metadata s VIPC_BUFFER_COUNT device_id context cam v n type
  have hget : ∀ i, i < n →
      (s.init VIPC_BUFFER_COUNT device_id context cam v n type).frame_metadata[i]? =
        some FrameMetadata.unset := by
    intro i hi
    rw [hmeta, List.getElem?_replicate]
    simp [hi]
  refine ⟨by rw [hmeta]; simp, ?_, ?_, ?_⟩
  · intro md hmd
    rw [hmeta] at hmd
    rw [(List.mem_replicate.mp hmd).2]
    rfl
  · intro i hi
    exact ⟨FrameMetadata.unset, hget i hi, rfl⟩
  · intro i rest hi hq
    refine ⟨{ (s.init VIPC_BUFFER_COUNT device_id context cam v n type) with
      safe_queue := { items := rest }, cur_buf_idx := i,
      log := (s.init VIPC_BUFFER_COUNT device_id context cam v n type).log ++
        [LogEntry.LOGE "no frame data? wtf"] }, ?_, rfl⟩
    simp [CameraBuf.acquire, try_pop_cons _ i rest hq, hget i hi, FrameMetadata.unset]

/-- C12 (as stated, refuted): with `VIPC_BUFFER_COUNT = 18`, `init` with slot count 4 asks
the publishing service for 18 output buffers, not 4; and `init` with slot count 20 leaves
a metadata array in which slot 19 can be looked up, while the output pool requested has
18 buffers only. -/
theorem init_output_pool_count_is_constant :
    ((sample_state [] none).init 18 0 0 (sample_camera (sample_sensor 0)) ⟨[]⟩ 4 2
        ).vipc_server.calls =
      [VipcCall.create_buffers_with_sizes 2 18 1928 1208 (2346 * 2048) 2048 2490368] ∧
    (18 : Nat) ≠ 4 ∧
    ((sample_state [] none).init 18 0 0 (sample_camera (sample_sensor 0)) ⟨[]⟩ 20 2
        ).frame_metadata[19]? = some FrameMetadata.unset ∧
    ((sample_state [] none).init 18 0 0 (sample_camera (sample_sensor 0)) ⟨[]⟩ 20 2
        ).vipc_server.calls =
      [VipcCall.create_buffers_with_sizes 2 18 1928 1208 (2346 * 2048) 2048 2490368] ∧
    ¬ (19 < 18) := by
  refine ⟨by decide, by decide, by decide, by decide, by decide⟩

/-- C12 (amended): for every slot count `n` passed to `init`, the metadata array has `n`
entries and the raw-buffer pool, when `init` creates it, has `n` buffers, so both are
indexed by `[0, n)`; the output-pool creation request asks for `VIPC_BUFFER_COUNT`
buffers, a constant that does not depend on `n`; when `n <= VIPC_BUFFER_COUNT`, every slot
index that can be looked up in the metadata array is below the number of output buffers
requested. -/
theorem init_slot_index_spaces (s : CameraBuf) (VIPC_BUFFER_COUNT device_id context : Nat)
    (cam : SpectraCamera) (v : VisionIpcServer) (n : Nat) (type : VisionStreamType) :
    (s.init VIPC_BUFFER_COUNT device_id context cam v n type).frame_metadata.length = n ∧
    (∀ i, (∃ md, (s.init VIPC_BUFFER_COUNT device_id context cam v n type).frame_metadata[i]?
        = some md) ↔ i < n) ∧
    (cam.output_type ≠ SpectraOutputType.ISP_IFE_PROCESSED →
      ∃ pool, (s.init VIPC_BUFFER_COUNT device_id context cam v n type).camera_bufs_raw =
        some pool ∧ pool.length = n) ∧
    (∃ (width height : Int) (size stride uv_offset : Nat),
      (s.init VIPC_BUFFER_COUNT device_id context cam v n type).vipc_server.calls =
        v.calls ++ [VipcCall.create_buffers_with_sizes type VIPC_BUFFER_COUNT width height size
          stride uv_offset]) ∧
    (n ≤ VIPC_BUFFER_COUNT → ∀ i md,
      (s.init VIPC_BUFFER_COUNT device_id context cam v n type).frame_metadata[i]? = some md →
      i < VIPC_BUFFER_COUNT) := by
  have hmeta := init_frame_metadata s VIPC_BUFFER_COUNT device_id context cam v n type
  have hiff : ∀ i, (∃ md,
      (s.init VIPC_BUFFER_COUNT device_id context cam v n type).frame_metadata[i]? = some md)
        ↔ i < n := by
    intro i
    rw [hmeta]
    constructor
    · rintro ⟨md, hmd⟩
      by_contra hge
      rw [List.getElem?_eq_none (by simpa using hge)] at hmd
      exact Option.noConfusion hmd
    · intro hi
      exact ⟨FrameMetadata.unset, by rw [List.getElem?_replicate]; simp [hi]⟩
  refine ⟨by rw [hmeta]; simp, hiff, fun hne => ?_,
    init_num_buffers s VIPC_BUFFER_COUNT device_id context cam v n type, ?_⟩
  · exact ⟨_, (init_raw_of_ne s VIPC_BUFFER_COUNT device_id context cam v n type hne).1,
      by simp⟩
  · intro hn i md hi
    have := (hiff i).mp ⟨md, hi⟩
    omega

/-- C13 (as stated, refuted): for a sensor of 70000 rows and a row stride of 70000 with raw
output, `init` with 2 slots allocates each raw buffer with length 605032704, not
`70000 * 70000 = 4900000000`: the product is computed in 32-bit arithmetic and held in an
`int`. -/
theorem init_raw_size_wraps :
    (large_sensor.frame_height + large_sensor.extra_height) * large_sensor.frame_stride =
      4900000000 ∧
    ((sample_state [] none).init 18 7 9
        (sample_camera_of large_sensor SpectraOutputType.ISP_RAW_OUTPUT 2048)
        ⟨[]⟩ 2 2).camera_bufs_raw = some [⟨605032704⟩, ⟨605032704⟩] ∧
    ((sample_state [] none).init 18 7 9
        (sample_camera_of large_sensor SpectraOutputType.ISP_RAW_OUTPUT 2048)
        ⟨[]⟩ 2 2).raw_calls =
      [RawCall.allocate 0 605032704, RawCall.init_cl 0 7 9,
       RawCall.allocate 1 605032704, RawCall.init_cl 1 7 9] ∧
    (605032704 : Int) ≠ 4900000000 := by
  refine ⟨by decide, by decide, by decide, by decide⟩

/-- C13 (amended): `init` creates a raw-buffer pool exactly when the camera's output type
is not `ISP_IFE_PROCESSED`. When it does, the pool has `frame_cnt` buffers, and the calls
made on the raw buffers are, for each slot in turn, one `allocate` followed by one
`init_cl`: each slot below `frame_cnt` is allocated once and mapped once. The length passed
to `allocate` is the `int` that holds the 32-bit product
`(frame_height + extra_height) * frame_stride`, converted to `size_t`; it is that product
whenever the product lies between 0 and `2^31 - 1`. Otherwise `init` leaves the pool as it was and makes no call on
a raw buffer, so that on an object without a pool (a null pointer) the pool is present
after `init` if and only if the output type is not `ISP_IFE_PROCESSED`. -/
theorem init_raw_pool (s : CameraBuf) (VIPC_BUFFER_COUNT device_id context : Nat)
    (cam : SpectraCamera) (v : VisionIpcServer) (frame_cnt : Nat) (type : VisionStreamType) :
    (cam.output_type ≠ SpectraOutputType.ISP_IFE_PROCESSED →
      ∃ raw_frame_size : Int,
        raw_frame_size =
          to_size_t (to_int32 ((cam.sensor.frame_height + cam.sensor.extra_height) *
            cam.sensor.frame_stride)) ∧
        (0 ≤ (cam.sensor.frame_height + cam.sensor.extra_height) * cam.sensor.frame_stride →
          (cam.sensor.frame_height + cam.sensor.extra_height) * cam.sensor.frame_stride
            < 2147483648 →
          raw_frame_size =
            (cam.sensor.frame_height + cam.sensor.extra_height) * cam.sensor.frame_stride) ∧
        (s.init VIPC_BUFFER_COUNT device_id context cam v frame_cnt type).camera_bufs_raw =
          some (List.replicate frame_cnt { len := raw_frame_size }) ∧
        (∃ added : List RawCall,
          (s.init VIPC_BUFFER_COUNT device_id context cam v frame_cnt type).raw_calls =
            s.raw_calls ++ added ∧
          added = ((List.range frame_cnt).map (fun i =>
            [RawCall.allocate i raw_frame_size,
              RawCall.init_cl i device_id context])).flatten ∧
          added.length = 2 * frame_cnt ∧
          ∀ i, i < frame_cnt →
            added.count (RawCall.allocate i raw_frame_size) = 1 ∧
            added.count (RawCall.init_cl i device_id context) = 1)) ∧
    (cam.output_type = SpectraOutputType.ISP_IFE_PROCESSED →
      (s.init VIPC_BUFFER_COUNT device_id context cam v frame_cnt type).camera_bufs_raw =
        s.camera_bufs_raw ∧
      (s.init VIPC_BUFFER_COUNT device_id context cam v frame_cnt type).raw_calls =
        s.raw_calls) ∧
    (s.camera_bufs_raw = none →
      ((s.init VIPC_BUFFER_COUNT device_id context cam v frame_cnt type
          ).camera_bufs_raw.isSome = true ↔
        cam.output_type ≠ SpectraOutputType.ISP_IFE_PROCESSED)) := by
  refine ⟨fun hne => ?_, fun heq => ?_, fun hnone => ?_⟩
  · obtain ⟨h1, h2⟩ := init_raw_of_ne s VIPC_BUFFER_COUNT device_id context cam v frame_cnt
      type hne
    refine ⟨_, rfl, fun h0 hlt => to_size_t_to_int32_of_small _ h0 hlt, h1, _, h2, rfl, ?_,
      fun i hi => ⟨?_, ?_⟩⟩
    · simp [List.length_flatten, Function.comp_def]
      ring
    · rw [count_allocate_calls, if_pos hi]
    · rw [count_init_cl_calls, if_pos hi]
  · exact init_raw_of_eq s VIPC_BUFFER_COUNT device_id context cam v frame_cnt type heq
  · by_cases h : cam.output_type = SpectraOutputType.ISP_IFE_PROCESSED
    · rw [(init_raw_of_eq s VIPC_BUFFER_COUNT device_id context cam v frame_cnt type h).1,
        hnone]
      simp [h]
    · rw [(init_raw_of_ne s VIPC_BUFFER_COUNT device_id context cam v frame_cnt type h).1]
      simp [h]

/-- C14: the destructor, when the raw pool exists, calls `free` on the raw buffer of each
slot `0, ..., frame_buf_count - 1` in turn, each exactly once and on no other slot; when
the pool was never allocated (null pool) it does nothing. -/
theorem destructor_frees_each_slot_once (s : CameraBuf) :
    (s.camera_bufs_raw.isSome = true →
      ∃ added : List RawCall, s.destructor.raw_calls = s.raw_calls ++ added ∧
        added = (List.range s.frame_buf_count).map RawCall.free ∧
        added.length = s.frame_buf_count ∧
        (∀ i, i < s.frame_buf_count → added.count (RawCall.free i) = 1) ∧
        (∀ i, s.frame_buf_count ≤ i → added.count (RawCall.free i) = 0)) ∧
    (s.camera_bufs_raw = none → s.destructor = s) := by
  refine ⟨fun hsome => ⟨_, ?_, rfl, by simp, fun i hi => ?_, fun i hi => ?_⟩, fun hnone => ?_⟩
  · simp [CameraBuf.destructor, hsome]
  · rw [count_free_calls, if_pos hi]
  · rw [count_free_calls, if_neg (by omega)]
  · simp [CameraBuf.destructor, hnone]

/-! ## Claims about `open_v4l_by_name_and_index` -/

/-- The scan, started at position `k`, in terms of the matching positions of the
enumerable names: it opens the position found at place `index` of that list and returns
what the open returns, or returns `-1` without opening when there is no such place. -/
theorem open_v4l_scan_spec (sys_open : Nat → Int → Int) (name : String) (flags : Int) :
    ∀ (l : List String) (k : Nat) (index : Int),
      open_v4l_scan sys_open name flags l k index =
        match (if index < 0 then none
               else (matching_positions_from name k (enumerable_names l))[index.toNat]?) with
        | some K => { ret := sys_open K flags, opened := some K }
        | none => { ret := -1, opened := none } := by
  intro l
  induction l with
  | nil =>
    intro k index
    by_cases h : index < 0 <;>
      simp [open_v4l_scan, matching_positions_from, enumerable_names, h]
  | cons a rest ih =>
    intro k index
    by_cases hempty : a.data.isEmpty = true
    · by_cases h : index < 0 <;>
        simp [open_v4l_scan, matching_positions_from, enumerable_names, hempty, h]
    · have hne : (!a.data.isEmpty) = true := by simpa using hempty
      have henum : enumerable_names (a :: rest) = a :: enumerable_names rest := by
        simp only [enumerable_names, List.takeWhile_cons, hne, if_true]
      by_cases hpre : name.data.isPrefixOf a.data = true
      · have hmatch : matching_positions_from name k (enumerable_names (a :: rest)) =
            k :: matching_positions_from name (k + 1) (enumerable_names rest) := by
          rw [henum]
          simp [matching_positions_from, List.enumFrom_cons, List.filter_cons, hpre]
        rw [open_v4l_scan, if_neg hempty, if_pos hpre, hmatch]
        by_cases h0 : index = 0
        · subst h0; simp
        · rw [if_neg h0, ih (k + 1) (index - 1)]
          by_cases hneg : index < 0
          · have hneg2 : index - 1 < 0 := by omega
            simp [hneg, hneg2]
          · have hpos : ¬ index - 1 < 0 := by omega
            have hnat : index.toNat = (index - 1).toNat + 1 := by omega
            rw [if_neg hneg, if_neg hpos, hnat, List.getElem?_cons_succ]
      · have hmatch : matching_positions_from name k (enumerable_names (a :: rest)) =
            matching_positions_from name (k + 1) (enumerable_names rest) := by
          rw [henum]
          simp [matching_positions_from, List.enumFrom_cons, List.filter_cons, hpre]
        rw [open_v4l_scan, if_neg hempty, if_neg hpre, hmatch, ih (k + 1) index]

/-- C15: with the device list taken as the non-empty names read for `v4l-subdev0`,
`v4l-subdev1`, ... up to the first empty name: for every name to match and every match
index, if fewer than `index + 1` names of the list start with it (which includes every
negative index), `open_v4l_by_name_and_index` terminates, returns `-1` and opens no device
node. -/
theorem open_v4l_not_found (sysfs : List String) (sys_open : Nat → Int → Int) (name : String)
    (index : Int) (flags : Int)
    (h : index < 0 ∨ ((matching_positions name sysfs).length : Int) < index + 1) :
    open_v4l_by_name_and_index sysfs sys_open name index flags =
      { ret := -1, opened := none } := by
  rw [open_v4l_by_name_and_index, open_v4l_scan_spec]
  by_cases hneg : index < 0
  · simp [hneg]
  · have hge : (matching_positions_from name 0 (enumerable_names sysfs)).length ≤
        index.toNat := by
      unfold matching_positions at h
      omega
    simp [hneg, List.getElem?_eq_none hge]

/-- C15 at a concrete input: two names start with `cam-sensor`, the match index is 2. -/
theorem open_v4l_not_found_witness :
    open_v4l_by_name_and_index sample_sysfs sample_open "cam-sensor" 2 0 =
      { ret := -1, opened := none } :=
  open_v4l_not_found sample_sysfs sample_open "cam-sensor" 2 0 (Or.inr (by decide))

/-- C18: with the device list taken as the non-empty names read for `v4l-subdev0`,
`v4l-subdev1`, ... up to the first empty name: for every name to match and every
`index >= 0` such that at least `index + 1` names of the list start with it,
`open_v4l_by_name_and_index` opens exactly one device node, `/dev/v4l-subdevK` with `K` the
position of the `(index + 1)`-th name that starts with it, and returns what that open
returns. A name matches when the name looked for is an initial segment of it. -/
theorem open_v4l_opens_indexed_match (sysfs : List String) (sys_open : Nat → Int → Int)
    (name : String) (index : Int) (flags : Int) (h0 : 0 ≤ index)
    (h : index + 1 ≤ ((matching_positions name sysfs).length : Int)) :
    ∃ K : Nat, (matching_positions name sysfs)[index.toNat]? = some K ∧
      open_v4l_by_name_and_index sysfs sys_open name index flags =
        { ret := sys_open K flags, opened := some K } := by
  have hlt : index.toNat < (matching_positions name sysfs).length := by omega
  refine ⟨(matching_positions name sysfs)[index.toNat], List.getElem?_eq_getElem hlt, ?_⟩
  rw [open_v4l_by_name_and_index, open_v4l_scan_spec]
  have hneg : ¬ index < 0 := by omega
  have hget : (matching_positions_from name 0 (enumerable_names sysfs))[index.toNat]? =
      some ((matching_positions name sysfs)[index.toNat]) := List.getElem?_eq_getElem hlt
  simp only [hneg, if_false, hget]

/-- C18 at a concrete input: the second name starting with `cam-sensor` is at position 2,
so `/dev/v4l-subdev2` is opened. -/
theorem open_v4l_opens_indexed_match_witness :
    ∃ K : Nat, (matching_positions "cam-sensor" sample_sysfs)[(1 : Int).toNat]? = some K ∧
      open_v4l_by_name_and_index sample_sysfs sample_open "cam-sensor" 1 0 =
        { ret := sample_open K 0, opened := some K } :=
  open_v4l_opens_indexed_match sample_sysfs sample_open "cam-sensor" 1 0 (by decide)
    (by decide)

/-! ## Further claims about the exposure meter -/

theorem exposure_level_of_zero_threshold (b : VisionBuf) (ae : Rect) (x_skip y_skip : Int)
    (hx : 1 ≤ x_skip) (hy : 1 ≤ y_skip)
    (h : ((samples b ae x_skip y_skip).length % U32) / 2 = 0) :
    exposure_level b ae x_skip y_skip = some 255 := by
  obtain ⟨k, hk, hlevel, _, hgreatest⟩ := exposure_level_spec b ae x_skip y_skip hx hy
  have hk255 : k = 255 := by
    by_contra hne
    have := hgreatest 255 (by omega) (le_refl _)
    rw [h] at this
    exact Nat.not_lt_zero _ this
  subst hk255
  simpa using hlevel

theorem count_le_add_count_ge_succ (l : List Nat) (L : Nat) :
    count_le l L + count_ge l (L + 1) = l.length := by
  induction l with
  | nil => simp [count_le, count_ge]
  | cons a l ih =>
    simp only [count_le, count_ge, List.countP_cons, List.length_cons] at ih ⊢
    by_cases h : a ≤ L
    · have h2 : ¬ L + 1 ≤ a := by omega
      simp [h, h2]
      omega
    · have h2 : L + 1 ≤ a := by omega
      simp [h, h2]
      omega

/-- C16 (as stated, refuted): the three samples 0, 0, 255 (a 3 x 1 region, steps 1) give
level 255, although only one sample out of three has luminance `>= 255`, which is less
than half; the median of the samples is 0. -/
theorem odd_total_level_above_median :
    samples two_dark_one_bright_buf ⟨0, 0, 3, 1⟩ 1 1 = [0, 0, 255] ∧
    exposure_level two_dark_one_bright_buf ⟨0, 0, 3, 1⟩ 1 1 = some 255 ∧
    ¬ ((samples two_dark_one_bright_buf ⟨0, 0, 3, 1⟩ 1 1).length ≤
      2 * count_ge (samples two_dark_one_bright_buf ⟨0, 0, 3, 1⟩ 1 1) 255) ∧
    (samples two_dark_one_bright_buf ⟨0, 0, 3, 1⟩ 1 1).length ≤
      2 * count_ge (samples two_dark_one_bright_buf ⟨0, 0, 3, 1⟩ 1 1) 0 ∧
    (samples two_dark_one_bright_buf ⟨0, 0, 3, 1⟩ 1 1).length ≤
      2 * count_le (samples two_dark_one_bright_buf ⟨0, 0, 3, 1⟩ 1 1) 0 := by
  refine ⟨by decide, by decide, by decide, by decide, by decide⟩

/-- C16 (amended): for every buffer, region and steps `>= 1` yielding fewer than `2^32`
samples, the level chosen has at least `floor(total / 2)` of the samples at luminance
`>=` the level and at least half of the samples at luminance `<=` the level; so for an
even number of samples the level is a median of the sampled luminances. -/
theorem level_is_median_up_to_rounding (b : VisionBuf) (ae : Rect) (x_skip y_skip : Int)
    (hx : 1 ≤ x_skip) (hy : 1 ≤ y_skip) (hsmall : (samples b ae x_skip y_skip).length < U32) :
    ∃ L : Nat, L ≤ 255 ∧ exposure_level b ae x_skip y_skip = some (L : Int) ∧
      (samples b ae x_skip y_skip).length / 2 ≤ count_ge (samples b ae x_skip y_skip) L ∧
      (samples b ae x_skip y_skip).length ≤ 2 * count_le (samples b ae x_skip y_skip) L ∧
      ((samples b ae x_skip y_skip).length % 2 = 0 →
        (samples b ae x_skip y_skip).length ≤
          2 * count_ge (samples b ae x_skip y_skip) L) := by
  obtain ⟨k, hk, hlevel, hreach, hgreatest⟩ := exposure_level_spec b ae x_skip y_skip hx hy
  have hle : ∀ j, count_ge (samples b ae x_skip y_skip) j ≤
      (samples b ae x_skip y_skip).length := fun j => List.countP_le_length _
  have hmod : ∀ j, count_ge (samples b ae x_skip y_skip) j % U32 =
      count_ge (samples b ae x_skip y_skip) j :=
    fun j => Nat.mod_eq_of_lt (lt_of_le_of_lt (hle j) hsmall)
  rw [hmod, Nat.mod_eq_of_lt hsmall] at hreach
  have hsplit := count_le_add_count_ge_succ (samples b ae x_skip y_skip) k
  refine ⟨k, hk, hlevel, hreach, ?_, fun heven => by omega⟩
  by_cases hk255 : k = 255
  · have h0 : count_ge (samples b ae x_skip y_skip) (k + 1) = 0 := by
      rw [hk255]
      exact count_ge_of_lt _ 256 (samples_lt b ae x_skip y_skip)
    omega
  · have := hgreatest (k + 1) (by omega) (by omega)
    rw [hmod, Nat.mod_eq_of_lt hsmall] at this
    omega

/-- C16 (amended) at a concrete input: a 2 x 2 region of a two-valued plane. -/
theorem level_is_median_up_to_rounding_witness :
    ∃ L : Nat, L ≤ 255 ∧ exposure_level checker_buf ⟨0, 0, 2, 2⟩ 1 1 = some (L : Int) ∧
      (samples checker_buf ⟨0, 0, 2, 2⟩ 1 1).length / 2 ≤
        count_ge (samples checker_buf ⟨0, 0, 2, 2⟩ 1 1) L ∧
      (samples checker_buf ⟨0, 0, 2, 2⟩ 1 1).length ≤
        2 * count_le (samples checker_buf ⟨0, 0, 2, 2⟩ 1 1) L ∧
      ((samples checker_buf ⟨0, 0, 2, 2⟩ 1 1).length % 2 = 0 →
        (samples checker_buf ⟨0, 0, 2, 2⟩ 1 1).length ≤
          2 * count_ge (samples checker_buf ⟨0, 0, 2, 2⟩ 1 1) L) :=
  level_is_median_up_to_rounding checker_buf ⟨0, 0, 2, 2⟩ 1 1 (by decide) (by decide)
    (by decide)

/-- C20: for every region that yields no samples (width `<= 0` or height `<= 0`) and for
every region that yields exactly one sample, with steps `>= 1`, the threshold
`lum_total / 2` is 0, the scan stops at bucket 255 and `calculate_exposure_value` returns
`255/256`, whatever the buffer contains. -/
theorem degenerate_region_selects_255 (b : VisionBuf) (ae : Rect) (x_skip y_skip : Int)
    (hx : 1 ≤ x_skip) (hy : 1 ≤ y_skip)
    (h : ae.w ≤ 0 ∨ ae.h ≤ 0 ∨ (samples b ae x_skip y_skip).length = 1) :
    ((ae.w ≤ 0 ∨ ae.h ≤ 0) → samples b ae x_skip y_skip = []) ∧
    exposure_level b ae x_skip y_skip = some 255 ∧
    calculate_exposure_value b ae x_skip y_skip = some ((255 : ℚ) / 256) := by
  have hempty : (ae.w ≤ 0 ∨ ae.h ≤ 0) → samples b ae x_skip y_skip = [] := by
    intro hwh
    apply List.eq_nil_of_length_eq_zero
    rw [samples_length]
    rcases hwh with hw | hh
    · rw [step_count_of_nonpos _ _ hw, Nat.mul_zero]
    · rw [step_count_of_nonpos _ _ hh, Nat.zero_mul]
  have hthr : ((samples b ae x_skip y_skip).length % U32) / 2 = 0 := by
    rcases h with hw | hh | h1
    · rw [hempty (Or.inl hw)]; rfl
    · rw [hempty (Or.inr hh)]; rfl
    · rw [h1]; rfl
  have hlevel := exposure_level_of_zero_threshold b ae x_skip y_skip hx hy hthr
  have hval := calculate_exposure_value_of_level _ _ _ _ _ hlevel
  exact ⟨hempty, hlevel, by simpa using hval⟩

/-- C20 at a concrete input: one sample of luminance 7. -/
theorem degenerate_region_selects_255_witness :
    (((Rect.mk 0 0 1 1).w ≤ 0 ∨ (Rect.mk 0 0 1 1).h ≤ 0) →
      samples (uniform_buf 7 4) ⟨0, 0, 1, 1⟩ 1 1 = []) ∧
    exposure_level (uniform_buf 7 4) ⟨0, 0, 1, 1⟩ 1 1 = some 255 ∧
    calculate_exposure_value (uniform_buf 7 4) ⟨0, 0, 1, 1⟩ 1 1 = some ((255 : ℚ) / 256) :=
  degenerate_region_selects_255 (uniform_buf 7 4) ⟨0, 0, 1, 1⟩ 1 1 (by decide) (by decide)
    (Or.inr (Or.inr (by decide)))

/-! ## Floating-point rounding and `processing_time` -/

theorem bit_length_zero (fuel : Nat) : bit_length fuel 0 = 0 := by
  cases fuel <;> simp [bit_length]

theorem bit_length_spec :
    ∀ (fuel n : Nat), n < 2 ^ fuel → 0 < n →
      2 ^ bit_length fuel n ≤ 2 * n ∧ n < 2 ^ bit_length fuel n := by
  intro fuel
  induction fuel with
  | zero => intro n h1 h2; simp at h1; omega
  | succ fuel ih =>
    intro n h1 h2
    have hn : n ≠ 0 := by omega
    rw [bit_length, if_neg hn]
    by_cases h0 : n / 2 = 0
    · rw [h0, bit_length_zero]
      have : n = 1 := by omega
      subst this
      simp
    · have hlt : n / 2 < 2 ^ fuel := by
        rw [pow_succ] at h1
        omega
      obtain ⟨ha, hb⟩ := ih (n / 2) hlt (by omega)
      rw [pow_succ]
      generalize 2 ^ bit_length fuel (n / 2) = P at ha hb
      omega

theorem round_half_even_bounds (n s : Nat) :
    2 * (round_half_even n s * 2 ^ s) ≤ 2 * n + 2 ^ s ∧
    2 * n ≤ 2 * (round_half_even n s * 2 ^ s) + 2 ^ s := by
  have hT : 0 < 2 ^ s := Nat.two_pow_pos s
  have hdm : 2 ^ s * (n / 2 ^ s) + n % 2 ^ s = n := Nat.div_add_mod n (2 ^ s)
  have hr : n % 2 ^ s < 2 ^ s := Nat.mod_lt _ hT
  have e1 : n / 2 ^ s * 2 ^ s = 2 ^ s * (n / 2 ^ s) := Nat.mul_comm _ _
  have e2 : (n / 2 ^ s + 1) * 2 ^ s = 2 ^ s * (n / 2 ^ s) + 2 ^ s := by ring
  unfold round_half_even
  generalize 2 ^ s * (n / 2 ^ s) = X at hdm e1 e2
  generalize n % 2 ^ s = r at hdm hr
  split_ifs <;> simp only [e1, e2] <;> omega

theorem BinFloat.toRat_nonneg (d : BinFloat) : 0 ≤ d.toRat := by
  unfold BinFloat.toRat
  positivity

/-- Rounding to `p` binary digits keeps the significand at most `2^p` and moves the value
by a relative error of at most `2^-p`. -/
theorem round_to_bits_spec (p : Nat) (d : BinFloat) (hm : d.m < 2 ^ 128) :
    (round_to_bits p d).m ≤ 2 ^ p ∧
    (1 - 1 / (2 : ℚ) ^ p) * d.toRat ≤ (round_to_bits p d).toRat ∧
    (round_to_bits p d).toRat ≤ (1 + 1 / (2 : ℚ) ^ p) * d.toRat := by
  have hv : 0 ≤ d.toRat := d.toRat_nonneg
  have hP : (0 : ℚ) < (2 : ℚ) ^ p := by positivity
  have hε : (0 : ℚ) ≤ 1 / (2 : ℚ) ^ p := by positivity
  by_cases h : d.m < 2 ^ p
  · have hr : round_to_bits p d = d := by simp [round_to_bits, h]
    rw [hr]
    have e1 : (1 - 1 / (2 : ℚ) ^ p) * d.toRat = d.toRat - 1 / (2 : ℚ) ^ p * d.toRat := by ring
    have e2 : (1 + 1 / (2 : ℚ) ^ p) * d.toRat = d.toRat + 1 / (2 : ℚ) ^ p * d.toRat := by ring
    refine ⟨le_of_lt h, ?_, ?_⟩
    · rw [e1]; exact sub_le_self _ (mul_nonneg hε hv)
    · rw [e2]; exact le_add_of_nonneg_right (mul_nonneg hε hv)
  · have hge : 2 ^ p ≤ d.m := by omega
    have hpos : 0 < d.m := lt_of_lt_of_le (Nat.two_pow_pos p) hge
    obtain ⟨hL1, hL2⟩ := bit_length_spec 128 d.m hm hpos
    have hpL : p < bit_length 128 d.m := by
      have : 2 ^ p < 2 ^ bit_length 128 d.m := lt_of_le_of_lt hge hL2
      exact (Nat.pow_lt_pow_iff_right (by decide)).mp this
    have hr : round_to_bits p d =
        { m := round_half_even d.m (bit_length 128 d.m - p),
          e := d.e + ((bit_length 128 d.m - p : Nat) : Int) } := by
      simp [round_to_bits, h]
    obtain ⟨hq1, hq2⟩ := round_half_even_bounds d.m (bit_length 128 d.m - p)
    have hsplit : 2 ^ bit_length 128 d.m = 2 ^ p * 2 ^ (bit_length 128 d.m - p) := by
      rw [← pow_add]
      congr 1
      omega
    rw [hsplit] at hL1 hL2
    generalize bit_length 128 d.m - p = sh at hr hq1 hq2 hL1 hL2
    generalize hq : round_half_even d.m sh = q at hr hq1 hq2
    have hT : 0 < 2 ^ sh := Nat.two_pow_pos sh
    have hqle : q ≤ 2 ^ p := by
      by_contra hgt
      have h1 : (2 ^ p + 1) * 2 ^ sh ≤ q * 2 ^ sh := Nat.mul_le_mul_right _ (by omega)
      have h2 : (2 ^ p + 1) * 2 ^ sh = 2 ^ p * 2 ^ sh + 2 ^ sh := by ring
      generalize 2 ^ p * 2 ^ sh = A at h1 h2 hL1 hL2
      generalize q * 2 ^ sh = B at h1 hq1 hq2
      omega
    have c1 : (2 : ℚ) * ((q : ℚ) * (2 : ℚ) ^ sh) ≤ 2 * (d.m : ℚ) + (2 : ℚ) ^ sh := by
      exact_mod_cast hq1
    have c2 : (2 : ℚ) * (d.m : ℚ) ≤ 2 * ((q : ℚ) * (2 : ℚ) ^ sh) + (2 : ℚ) ^ sh := by
      exact_mod_cast hq2
    have c3 : (2 : ℚ) ^ p * (2 : ℚ) ^ sh ≤ 2 * (d.m : ℚ) := by
      exact_mod_cast hL1
    have c4 : (2 : ℚ) ^ sh / 2 ≤ (d.m : ℚ) / (2 : ℚ) ^ p := by
      rw [div_le_div_iff₀ (by norm_num) hP]
      linarith
    have hE : (0 : ℚ) < (2 : ℚ) ^ d.e := by positivity
    have hto : (round_to_bits p d).toRat = ((q : ℚ) * (2 : ℚ) ^ sh) * (2 : ℚ) ^ d.e := by
      rw [hr]
      simp only [BinFloat.toRat]
      rw [zpow_add₀ (by norm_num : (2 : ℚ) ≠ 0), zpow_natCast]
      ring
    have hd : d.toRat = (d.m : ℚ) * (2 : ℚ) ^ d.e := rfl
    refine ⟨by rw [hr]; exact hqle, ?_, ?_⟩
    · rw [hto, hd, ← mul_assoc]
      apply mul_le_mul_of_nonneg_right _ (le_of_lt hE)
      have : (1 - 1 / (2 : ℚ) ^ p) * (d.m : ℚ) = (d.m : ℚ) - (d.m : ℚ) / (2 : ℚ) ^ p := by
        field_simp
        ring
      rw [this]
      linarith
    · rw [hto, hd, ← mul_assoc]
      apply mul_le_mul_of_nonneg_right _ (le_of_lt hE)
      have : (1 + 1 / (2 : ℚ) ^ p) * (d.m : ℚ) = (d.m : ℚ) + (d.m : ℚ) / (2 : ℚ) ^ p := by
        field_simp
        ring
      rw [this]
      linarith

theorem double_1e_9_bounds :
    (1 - 1 / (2 : ℚ) ^ 53) * (1 / 1000000000) ≤ double_1e_9.toRat ∧
    double_1e_9.toRat ≤ (1 + 1 / (2 : ℚ) ^ 53) * (1 / 1000000000) := by
  have h : double_1e_9.toRat = (4835703278458517 : ℚ) / (2 : ℚ) ^ 82 := by
    simp only [BinFloat.toRat, double_1e_9]
    rw [zpow_neg, div_eq_mul_inv]
    norm_num
  rw [h]
  constructor <;> norm_num

/-- The stored `processing_time` is within a relative error of `2^-23` of the exact
quotient of the 64-bit timestamp difference by `10^9`. -/
theorem processing_time_of_bounds (md : FrameMetadata) :
    (1 - 1 / (2 : ℚ) ^ 23) *
        ((((((md.timestamp_end_of_isp : Int) - (md.timestamp_eof : Int)) %
          (18446744073709551616 : Int)).toNat : Nat) : ℚ) / 1000000000) ≤
      processing_time_of md ∧
    processing_time_of md ≤
      (1 + 1 / (2 : ℚ) ^ 23) *
        ((((((md.timestamp_end_of_isp : Int) - (md.timestamp_eof : Int)) %
          (18446744073709551616 : Int)).toNat : Nat) : ℚ) / 1000000000) := by
  have hpt : processing_time_of md =
      (round_to_bits 24 (round_to_bits 53
        { m := (round_to_bits 53 { m := (((md.timestamp_end_of_isp : Int) -
              (md.timestamp_eof : Int)) % (18446744073709551616 : Int)).toNat, e := 0 }).m *
            double_1e_9.m,
          e := (round_to_bits 53 { m := (((md.timestamp_end_of_isp : Int) -
              (md.timestamp_eof : Int)) % (18446744073709551616 : Int)).toNat, e := 0 }).e +
            double_1e_9.e })).toRat := rfl
  have hdiff : (((md.timestamp_end_of_isp : Int) - (md.timestamp_eof : Int)) %
      (18446744073709551616 : Int)).toNat < 18446744073709551616 := by omega
  generalize (((md.timestamp_end_of_isp : Int) - (md.timestamp_eof : Int)) %
      (18446744073709551616 : Int)).toNat = diff at hpt hdiff
  have hD : ({ m := diff, e := 0 } : BinFloat).toRat = (diff : ℚ) := by
    simp [BinFloat.toRat]
  obtain ⟨hm1, hl1, hu1⟩ := round_to_bits_spec 53 { m := diff, e := 0 }
    (lt_trans hdiff (by norm_num))
  rw [hD] at hl1 hu1
  generalize round_to_bits 53 { m := diff, e := 0 } = d1 at hpt hm1 hl1 hu1
  have hm2 : d1.m * double_1e_9.m < 2 ^ 128 := by
    have h1 : d1.m * double_1e_9.m ≤ 2 ^ 53 * double_1e_9.m := Nat.mul_le_mul_right _ hm1
    have h2 : 2 ^ 53 * double_1e_9.m < 2 ^ 128 := by
      simp only [double_1e_9]
      norm_num
    exact lt_of_le_of_lt h1 h2
  have hpin : ({ m := d1.m * double_1e_9.m, e := d1.e + double_1e_9.e } : BinFloat).toRat =
      d1.toRat * double_1e_9.toRat := by
    simp only [BinFloat.toRat]
    rw [zpow_add₀ (by norm_num : (2 : ℚ) ≠ 0)]
    push_cast
    ring
  obtain ⟨hm3, hl2, hu2⟩ := round_to_bits_spec 53
    { m := d1.m * double_1e_9.m, e := d1.e + double_1e_9.e } hm2
  rw [hpin] at hl2 hu2
  generalize round_to_bits 53 { m := d1.m * double_1e_9.m, e := d1.e + double_1e_9.e } = d2
    at hpt hm3 hl2 hu2
  obtain ⟨_, hl3, hu3⟩ := round_to_bits_spec 24 d2 (lt_of_le_of_lt hm3 (by norm_num))
  rw [← hpt] at hl3 hu3
  obtain ⟨hcl, hcu⟩ := double_1e_9_bounds
  have hd1 : 0 ≤ d1.toRat := d1.toRat_nonneg
  have hd2 : 0 ≤ d2.toRat := d2.toRat_nonneg
  have hc : 0 ≤ double_1e_9.toRat := double_1e_9.toRat_nonneg
  have hdq : (0 : ℚ) ≤ (diff : ℚ) := Nat.cast_nonneg diff
  have ha : (0 : ℚ) ≤ 1 + 1 / (2 : ℚ) ^ 53 := by norm_num
  have ha' : (0 : ℚ) ≤ 1 - 1 / (2 : ℚ) ^ 53 := by norm_num
  have hb : (0 : ℚ) ≤ 1 + 1 / (2 : ℚ) ^ 24 := by norm_num
  have hb' : (0 : ℚ) ≤ 1 - 1 / (2 : ℚ) ^ 24 := by norm_num
  have hx : (0 : ℚ) ≤ (diff : ℚ) * (1 / 1000000000) := by positivity
  constructor
  · have s1 : ((1 - 1 / (2 : ℚ) ^ 53) * (diff : ℚ)) *
        ((1 - 1 / (2 : ℚ) ^ 53) * (1 / 1000000000)) ≤ d1.toRat * double_1e_9.toRat :=
      mul_le_mul hl1 hcl (mul_nonneg ha' (by norm_num)) hd1
    have s2 : (1 - 1 / (2 : ℚ) ^ 53) * (((1 - 1 / (2 : ℚ) ^ 53) * (diff : ℚ)) *
        ((1 - 1 / (2 : ℚ) ^ 53) * (1 / 1000000000))) ≤ d2.toRat :=
      le_trans (mul_le_mul_of_nonneg_left s1 ha') hl2
    have s3 : (1 - 1 / (2 : ℚ) ^ 24) * ((1 - 1 / (2 : ℚ) ^ 53) *
        (((1 - 1 / (2 : ℚ) ^ 53) * (diff : ℚ)) *
        ((1 - 1 / (2 : ℚ) ^ 53) * (1 / 1000000000)))) ≤ processing_time_of md :=
      le_trans (mul_le_mul_of_nonneg_left s2 hb') hl3
    have hk : (1 - 1 / (2 : ℚ) ^ 23) ≤
        (1 - 1 / (2 : ℚ) ^ 24) * ((1 - 1 / (2 : ℚ) ^ 53) * ((1 - 1 / (2 : ℚ) ^ 53) *
          (1 - 1 / (2 : ℚ) ^ 53))) := by norm_num
    have s4 := mul_le_mul_of_nonneg_right hk hx
    have e : (1 - 1 / (2 : ℚ) ^ 24) * ((1 - 1 / (2 : ℚ) ^ 53) *
        (((1 - 1 / (2 : ℚ) ^ 53) * (diff : ℚ)) *
        ((1 - 1 / (2 : ℚ) ^ 53) * (1 / 1000000000)))) =
        (1 - 1 / (2 : ℚ) ^ 24) * ((1 - 1 / (2 : ℚ) ^ 53) * ((1 - 1 / (2 : ℚ) ^ 53) *
          (1 - 1 / (2 : ℚ) ^ 53))) * ((diff : ℚ) * (1 / 1000000000)) := by ring
    have e2 : (diff : ℚ) / 1000000000 = (diff : ℚ) * (1 / 1000000000) := by ring
    rw [e2]
    rw [e] at s3
    exact le_trans s4 s3
  · have s1 : d1.toRat * double_1e_9.toRat ≤ ((1 + 1 / (2 : ℚ) ^ 53) * (diff : ℚ)) *
        ((1 + 1 / (2 : ℚ) ^ 53) * (1 / 1000000000)) :=
      mul_le_mul hu1 hcu hc (mul_nonneg ha hdq)
    have s2 : d2.toRat ≤ (1 + 1 / (2 : ℚ) ^ 53) * (((1 + 1 / (2 : ℚ) ^ 53) * (diff : ℚ)) *
        ((1 + 1 / (2 : ℚ) ^ 53) * (1 / 1000000000))) :=
      le_trans hu2 (mul_le_mul_of_nonneg_left s1 ha)
    have s3 : processing_time_of md ≤ (1 + 1 / (2 : ℚ) ^ 24) * ((1 + 1 / (2 : ℚ) ^ 53) *
        (((1 + 1 / (2 : ℚ) ^ 53) * (diff : ℚ)) *
        ((1 + 1 / (2 : ℚ) ^ 53) * (1 / 1000000000)))) :=
      le_trans hu3 (mul_le_mul_of_nonneg_left s2 hb)
    have hk : (1 + 1 / (2 : ℚ) ^ 24) * ((1 + 1 / (2 : ℚ) ^ 53) * ((1 + 1 / (2 : ℚ) ^ 53) *
          (1 + 1 / (2 : ℚ) ^ 53))) ≤ (1 + 1 / (2 : ℚ) ^ 23) := by norm_num
    have s4 := mul_le_mul_of_nonneg_right hk hx
    have e : (1 + 1 / (2 : ℚ) ^ 24) * ((1 + 1 / (2 : ℚ) ^ 53) *
        (((1 + 1 / (2 : ℚ) ^ 53) * (diff : ℚ)) *
        ((1 + 1 / (2 : ℚ) ^ 53) * (1 / 1000000000)))) =
        (1 + 1 / (2 : ℚ) ^ 24) * ((1 + 1 / (2 : ℚ) ^ 53) * ((1 + 1 / (2 : ℚ) ^ 53) *
          (1 + 1 / (2 : ℚ) ^ 53))) * ((diff : ℚ) * (1 / 1000000000)) := by ring
    have e2 : (diff : ℚ) / 1000000000 = (diff : ℚ) * (1 / 1000000000) := by ring
    rw [e2]
    rw [e] at s3
    exact le_trans s3 s4

/-- C17 (as stated, refuted): with end of exposure at 2000 ns and end of ISP processing at
5000 ns, a successful `acquire` stores the single-precision value
`3298535 / 2^40 = 3.00000011e-06`, which is not the exact rational
`((5000 - 2000) mod 2^64) / 10^9 = 3/10^6`. -/
theorem processing_time_is_rounded :
    (sample_frame 11).timestamp_eof = 2000 ∧
    (sample_frame 11).timestamp_end_of_isp = 5000 ∧
    processing_time_float (sample_frame 11) = { m := 13194140, e := -42 } ∧
    ∃ s1 : CameraBuf, (sample_state [1, 2] none).acquire = some (true, s1) ∧
      s1.cur_frame_data.processing_time = (3298535 : ℚ) / 1099511627776 ∧
      s1.cur_frame_data.processing_time ≠
        (((((5000 : Int) - (2000 : Int)) % (18446744073709551616 : Int)).toNat : Nat) : ℚ)
          / 1000000000 := by
  have hf : processing_time_float (sample_frame 11) = { m := 13194140, e := -42 } := by
    decide
  have hv : processing_time_of (sample_frame 11) = (3298535 : ℚ) / 1099511627776 := by
    simp only [processing_time_of, hf, BinFloat.toRat]
    rw [zpow_neg]
    norm_num
  have hacq : ∃ s1 : CameraBuf, (sample_state [1, 2] none).acquire = some (true, s1) ∧
      s1.cur_frame_data.processing_time = processing_time_of (sample_frame 11) := by
    simp [CameraBuf.acquire, SafeQueue.try_pop, sample_state, sample_frame]
  obtain ⟨s1, h1, h2⟩ := hacq
  have e : (((5000 : Int) - (2000 : Int)) % (18446744073709551616 : Int)).toNat = 3000 := by
    decide
  refine ⟨rfl, rfl, hf, s1, h1, by rw [h2, hv], ?_⟩
  rw [h2, hv, e]
  norm_num

/-- C17 (amended): on every successful `acquire` of slot `i`, with unsigned 64-bit
nanosecond timestamps, the snapshot's `processing_time` is the single-precision value of
the double-precision product `(double)((timestamp_end_of_isp - timestamp_eof) mod 2^64) *
1e-9`. It is non-negative and within a relative error of `2^-23` of the exact rational
`((timestamp_end_of_isp - timestamp_eof) mod 2^64) / 10^9`, which for
`timestamp_eof <= timestamp_end_of_isp` is the latency
`(timestamp_end_of_isp - timestamp_eof) * 1e-9` seconds from end of exposure to end of ISP
processing and otherwise its wrapped counterpart; `timestamp_sof` is not used. -/
theorem acquire_processing_time (s : CameraBuf) (i : Nat) (rest : List Nat)
    (md : FrameMetadata) (hq : s.safe_queue.items = i :: rest)
    (hmd : s.frame_metadata[i]? = some md) (hid : md.frame_id ≠ -1)
    (heof : md.timestamp_eof < U64) (hisp : md.timestamp_end_of_isp < U64) :
    ∃ s1 : CameraBuf, s.acquire = some (true, s1) ∧
      s1.cur_frame_data.processing_time = (processing_time_float md).toRat ∧
      0 ≤ s1.cur_frame_data.processing_time ∧
      (1 - 1 / (2 : ℚ) ^ 23) *
          ((((((md.timestamp_end_of_isp : Int) - (md.timestamp_eof : Int)) %
            (18446744073709551616 : Int)).toNat : Nat) : ℚ) / 1000000000) ≤
        s1.cur_frame_data.processing_time ∧
      s1.cur_frame_data.processing_time ≤
        (1 + 1 / (2 : ℚ) ^ 23) *
          ((((((md.timestamp_end_of_isp : Int) - (md.timestamp_eof : Int)) %
            (18446744073709551616 : Int)).toNat : Nat) : ℚ) / 1000000000) ∧
      (md.timestamp_eof ≤ md.timestamp_end_of_isp →
        (1 - 1 / (2 : ℚ) ^ 23) *
            (((md.timestamp_end_of_isp - md.timestamp_eof : Nat) : ℚ) / 1000000000) ≤
          s1.cur_frame_data.processing_time ∧
        s1.cur_frame_data.processing_time ≤
          (1 + 1 / (2 : ℚ) ^ 23) *
            (((md.timestamp_end_of_isp - md.timestamp_eof : Nat) : ℚ) / 1000000000)) ∧
      (md.timestamp_end_of_isp < md.timestamp_eof →
        (1 - 1 / (2 : ℚ) ^ 23) *
            (((18446744073709551616 - (md.timestamp_eof - md.timestamp_end_of_isp) : Nat) : ℚ)
              / 1000000000) ≤
          s1.cur_frame_data.processing_time ∧
        s1.cur_frame_data.processing_time ≤
          (1 + 1 / (2 : ℚ) ^ 23) *
            (((18446744073709551616 - (md.timestamp_eof - md.timestamp_end_of_isp) : Nat) : ℚ)
              / 1000000000)) ∧
      (∀ t : Nat, s1.cur_frame_data.processing_time =
        processing_time_of { md with timestamp_sof := t }) := by
  have hacq : ∃ s1 : CameraBuf, s.acquire = some (true, s1) ∧
      s1.cur_frame_data.processing_time = processing_time_of md := by
    cases hraw : s.camera_bufs_raw <;>
      simp [CameraBuf.acquire, try_pop_cons _ i rest hq, hmd, hid, hraw]
  obtain ⟨s1, h1, h2⟩ := hacq
  simp only [U64] at heof hisp
  obtain ⟨hlo, hhi⟩ := processing_time_of_bounds md
  rw [← h2] at hlo hhi
  refine ⟨s1, h1, h2, ?_, hlo, hhi, fun hle => ?_, fun hlt => ?_, fun t => ?_⟩
  · rw [h2]
    exact (processing_time_float md).toRat_nonneg
  · have hnat : (((md.timestamp_end_of_isp : Int) - (md.timestamp_eof : Int)) %
        (18446744073709551616 : Int)).toNat =
        md.timestamp_end_of_isp - md.timestamp_eof := by omega
    rw [hnat] at hlo hhi
    exact ⟨hlo, hhi⟩
  · have hnat : (((md.timestamp_end_of_isp : Int) - (md.timestamp_eof : Int)) %
        (18446744073709551616 : Int)).toNat =
        18446744073709551616 - (md.timestamp_eof - md.timestamp_end_of_isp) := by omega
    rw [hnat] at hlo hhi
    exact ⟨hlo, hhi⟩
  · rw [h2]; rfl

/-- C17 (amended) at a concrete input: end of exposure at 2000 ns, end of ISP processing at
5000 ns. -/
theorem acquire_processing_time_witness :
    ∃ s1 : CameraBuf, (sample_state [1, 2] none).acquire = some (true, s1) ∧
      s1.cur_frame_data.processing_time = (processing_time_float (sample_frame 11)).toRat ∧
      0 ≤ s1.cur_frame_data.processing_time ∧
      (1 - 1 / (2 : ℚ) ^ 23) *
          (((((((sample_frame 11).timestamp_end_of_isp : Int) -
            ((sample_frame 11).timestamp_eof : Int)) %
            (18446744073709551616 : Int)).toNat : Nat) : ℚ) / 1000000000) ≤
        s1.cur_frame_data.processing_time ∧
      s1.cur_frame_data.processing_time ≤
        (1 + 1 / (2 : ℚ) ^ 23) *
          (((((((sample_frame 11).timestamp_end_of_isp : Int) -
            ((sample_frame 11).timestamp_eof : Int)) %
            (18446744073709551616 : Int)).toNat : Nat) : ℚ) / 1000000000) ∧
      ((sample_frame 11).timestamp_eof ≤ (sample_frame 11).timestamp_end_of_isp →
        (1 - 1 / (2 : ℚ) ^ 23) *
            ((((sample_frame 11).timestamp_end_of_isp -
              (sample_frame 11).timestamp_eof : Nat) : ℚ) / 1000000000) ≤
          s1.cur_frame_data.processing_time ∧
        s1.cur_frame_data.processing_time ≤
          (1 + 1 / (2 : ℚ) ^ 23) *
            ((((sample_frame 11).timestamp_end_of_isp -
              (sample_frame 11).timestamp_eof : Nat) : ℚ) / 1000000000)) ∧
      ((sample_frame 11).timestamp_end_of_isp < (sample_frame 11).timestamp_eof →
        (1 - 1 / (2 : ℚ) ^ 23) *
            (((18446744073709551616 - ((sample_frame 11).timestamp_eof -
              (sample_frame 11).timestamp_end_of_isp) : Nat) : ℚ) / 1000000000) ≤
          s1.cur_frame_data.processing_time ∧
        s1.cur_frame_data.processing_time ≤
          (1 + 1 / (2 : ℚ) ^ 23) *
            (((18446744073709551616 - ((sample_frame 11).timestamp_eof -
              (sample_frame 11).timestamp_end_of_isp) : Nat) : ℚ) / 1000000000)) ∧
      (∀ t : Nat, s1.cur_frame_data.processing_time =
        processing_time_of { (sample_frame 11) with timestamp_sof := t }) :=
  acquire_processing_time (sample_state [1, 2] none) 1 [2] (sample_frame 11) rfl rfl
    (by decide) (by decide) (by decide)

theorem samples_eq_map_points (b : VisionBuf) (ae : Rect) (x_skip y_skip : Int) :
    samples b ae x_skip y_skip =
      (sample_points ae x_skip y_skip).map (fun p => b.lum p.1 p.2) := by
  simp [samples, sample_points, row_samples, List.map_flatten, Function.comp_def]

theorem sample_points_length (ae : Rect) (x_skip y_skip : Int) :
    (sample_points ae x_skip y_skip).length =
      step_count ae.h y_skip * step_count ae.w x_skip := by
  simp [sample_points, List.length_flatten, Function.comp_def]

theorem count_ge_map_mono (pts : List (Int × Int)) (f g : Int × Int → Nat) (L : Nat)
    (h : ∀ p ∈ pts, f p ≤ g p) : count_ge (pts.map f) L ≤ count_ge (pts.map g) L := by
  simp only [count_ge, List.countP_map]
  apply List.countP_mono_left
  intro p hp hf
  simp only [Function.comp, decide_eq_true_eq] at hf ⊢
  exact le_trans hf (h p hp)

/-- C19 (amended): for a fixed region and fixed steps `>= 1` yielding fewer than `2^32`
samples, if buffer `b2` has at every sampled position a luminance `>=` that of buffer `b1`
at the same position, then the level and the value returned for `b2` are `>=` those
returned for `b1`. -/
theorem exposure_value_monotone (b1 b2 : VisionBuf) (ae : Rect) (x_skip y_skip : Int)
    (hx : 1 ≤ x_skip) (hy : 1 ≤ y_skip)
    (hsmall : (sample_points ae x_skip y_skip).length < U32)
    (hle : ∀ p ∈ sample_points ae x_skip y_skip, b1.lum p.1 p.2 ≤ b2.lum p.1 p.2) :
    ∃ (L1 L2 : Nat) (r1 r2 : ℚ),
      exposure_level b1 ae x_skip y_skip = some (L1 : Int) ∧
      exposure_level b2 ae x_skip y_skip = some (L2 : Int) ∧
      calculate_exposure_value b1 ae x_skip y_skip = some r1 ∧
      calculate_exposure_value b2 ae x_skip y_skip = some r2 ∧
      L1 ≤ L2 ∧ r1 ≤ r2 := by
  obtain ⟨k1, hk1, hlevel1, hreach1, _⟩ := exposure_level_spec b1 ae x_skip y_skip hx hy
  obtain ⟨k2, hk2, hlevel2, _, hgreatest2⟩ := exposure_level_spec b2 ae x_skip y_skip hx hy
  have hlen1 : (samples b1 ae x_skip y_skip).length = (sample_points ae x_skip y_skip).length := by
    rw [samples_eq_map_points, List.length_map]
  have hlen2 : (samples b2 ae x_skip y_skip).length = (sample_points ae x_skip y_skip).length := by
    rw [samples_eq_map_points, List.length_map]
  have hmono : count_ge (samples b1 ae x_skip y_skip) k1 ≤
      count_ge (samples b2 ae x_skip y_skip) k1 := by
    rw [samples_eq_map_points b1, samples_eq_map_points b2]
    exact count_ge_map_mono _ _ _ k1 hle
  have hb1 : count_ge (samples b1 ae x_skip y_skip) k1 ≤
      (samples b1 ae x_skip y_skip).length := List.countP_le_length _
  have hb2 : count_ge (samples b2 ae x_skip y_skip) k1 ≤
      (samples b2 ae x_skip y_skip).length := List.countP_le_length _
  have hk : k1 ≤ k2 := by
    by_contra hlt
    have := hgreatest2 k1 (by omega) hk1
    rw [hlen1] at hreach1 hb1
    rw [hlen2] at this hb2
    simp only [U32] at hsmall hreach1 this
    omega
  refine ⟨k1, k2, (k1 : ℚ) / 256, (k2 : ℚ) / 256, hlevel1, hlevel2, ?_, ?_, hk, ?_⟩
  · simpa using calculate_exposure_value_of_level _ _ _ _ _ hlevel1
  · simpa using calculate_exposure_value_of_level _ _ _ _ _ hlevel2
  · have : (k1 : ℚ) ≤ (k2 : ℚ) := by exact_mod_cast hk
    exact div_le_div_of_nonneg_right this (by norm_num)

/-- C19 (amended) at a concrete input: a plane of bytes 7 against a plane of bytes 9. -/
theorem exposure_value_monotone_witness :
    ∃ (L1 L2 : Nat) (r1 r2 : ℚ),
      exposure_level (uniform_buf 7 4) ⟨0, 0, 2, 2⟩ 1 1 = some (L1 : Int) ∧
      exposure_level (uniform_buf 9 4) ⟨0, 0, 2, 2⟩ 1 1 = some (L2 : Int) ∧
      calculate_exposure_value (uniform_buf 7 4) ⟨0, 0, 2, 2⟩ 1 1 = some r1 ∧
      calculate_exposure_value (uniform_buf 9 4) ⟨0, 0, 2, 2⟩ 1 1 = some r2 ∧
      L1 ≤ L2 ∧ r1 ≤ r2 :=
  exposure_value_monotone (uniform_buf 7 4) (uniform_buf 9 4) ⟨0, 0, 2, 2⟩ 1 1 (by decide)
    (by decide) (by decide) (by decide)

theorem mem_sample_points (ae : Rect) (x_skip y_skip : Int) (p : Int × Int)
    (hp : p ∈ sample_points ae x_skip y_skip) :
    ∃ i j : Nat, i < step_count ae.h y_skip ∧ j < step_count ae.w x_skip ∧
      p = (ae.y + (i : Int) * y_skip, ae.x + (j : Int) * x_skip) := by
  simp only [sample_points, List.mem_flatten, List.mem_map, List.mem_range] at hp
  obtain ⟨r, ⟨i, hi, rfl⟩, hp⟩ := hp
  simp only [List.mem_map, List.mem_range] at hp
  obtain ⟨j, hj, rfl⟩ := hp
  exact ⟨i, j, hi, hj, rfl⟩

theorem countP_rows (q : Int → Bool) (y0 x0 x_skip y_skip : Int) (c : Nat) :
    ∀ n : Nat, (((List.range n).map (fun (i : Nat) =>
        (List.range c).map (fun (j : Nat) =>
          (y0 + (i : Int) * y_skip, x0 + (j : Int) * x_skip)))).flatten).countP
          (fun p => q p.1) =
      c * (List.range n).countP (fun (i : Nat) => q (y0 + (i : Int) * y_skip)) := by
  intro n
  induction n with
  | zero => simp
  | succ n ih =>
    rw [List.range_succ, List.map_append, List.flatten_append, List.countP_append, ih,
      List.countP_append]
    by_cases h : q (y0 + (n : Int) * y_skip) = true
    · simp [List.countP_map, Function.comp_def, h, Nat.mul_add]
    · simp [List.countP_map, Function.comp_def, h]

theorem countP_points_rows (ae : Rect) (x_skip y_skip : Int) (q : Int → Bool) :
    (sample_points ae x_skip y_skip).countP (fun p => q p.1) =
      step_count ae.w x_skip * (List.range (step_count ae.h y_skip)).countP
        (fun (i : Nat) => q (ae.y + (i : Int) * y_skip)) :=
  countP_rows q ae.y ae.x x_skip y_skip _ _

theorem countP_range_le (a : Nat) :
    ∀ n : Nat, (List.range n).countP (fun i => decide (a ≤ i)) = n - a := by
  intro n
  induction n with
  | zero => simp
  | succ n ih =>
    rw [List.range_succ, List.countP_append, ih]
    by_cases h : a ≤ n
    · simp [h]; omega
    · simp [h]; omega

/-- On the 65536 x 65537 region at the origin, steps 1, of a plane whose rows below `a`
hold 0 and whose other rows hold `v`: the number of samples of luminance at least `L`,
for `L >= 1`. -/
theorem count_ge_two_level (b : VisionBuf) (a v L : Nat) (hL : 1 ≤ L)
    (hb : ∀ i j : Nat, i < 65537 → j < 65536 →
      b.lum (i : Int) (j : Int) = if a ≤ i then v else 0) :
    count_ge (samples b ⟨0, 0, 65536, 65537⟩ 1 1) L =
      if L ≤ v then 65536 * (65537 - a) else 0 := by
  have hw : step_count 65536 1 = 65536 := by decide
  have hh : step_count 65537 1 = 65537 := by decide
  rw [samples_eq_map_points]
  simp only [count_ge, List.countP_map]
  have hcongr : (sample_points ⟨0, 0, 65536, 65537⟩ 1 1).countP
      ((fun s => decide (L ≤ s)) ∘ fun p => b.lum p.1 p.2) =
      (sample_points ⟨0, 0, 65536, 65537⟩ 1 1).countP
        (fun p => (fun y : Int => decide (L ≤ v) && decide ((a : Int) ≤ y)) p.1) := by
    apply List.countP_congr
    intro p hp
    obtain ⟨i, j, hi, hj, rfl⟩ := mem_sample_points _ _ _ p hp
    simp only [hw, hh] at hi hj
    have e1 : (0 : Int) + (i : Int) * 1 = (i : Int) := by ring
    have e2 : (0 : Int) + (j : Int) * 1 = (j : Int) := by ring
    simp only [Function.comp, e1, e2, hb i j hi hj, decide_eq_true_eq, Bool.and_eq_true]
    by_cases hai : a ≤ i
    · rw [if_pos hai]
      constructor
      · intro h; exact ⟨h, by omega⟩
      · intro h; exact h.1
    · rw [if_neg hai]
      constructor
      · intro h; omega
      · intro h; omega
  rw [hcongr, countP_points_rows ⟨0, 0, 65536, 65537⟩ 1 1
    (fun y : Int => decide (L ≤ v) && decide ((a : Int) ≤ y))]
  simp only [hw, hh]
  by_cases hLv : L ≤ v
  · rw [if_pos hLv]
    have hrows : (List.range 65537).countP
        (fun (i : Nat) => decide (L ≤ v) && decide ((a : Int) ≤ 0 + (i : Int) * 1)) =
        (List.range 65537).countP (fun i => decide (a ≤ i)) := by
      apply List.countP_congr
      intro i _
      simp only [hLv, decide_True, Bool.true_and, decide_eq_true_eq]
      omega
    rw [hrows, countP_range_le]
  · rw [if_neg hLv]
    have hrows : (List.range 65537).countP
        (fun (i : Nat) => decide (L ≤ v) && decide ((a : Int) ≤ 0 + (i : Int) * 1)) = 0 := by
      rw [List.countP_eq_zero]
      intro i _
      simp [hLv]
    rw [hrows]

theorem bright_tail_buf_lum (i j : Nat) (_hi : i < 65537) (hj : j < 65536) :
    (bright_tail_buf 5).lum (i : Int) (j : Int) = if 65536 ≤ i then 5 else 0 := by
  have hidx : ((((i : Int) * ((65536 : Nat) : Int) + (j : Int)) %
      ((18446744073709551616 : Nat) : Int)).toNat) = i * 65536 + j := by omega
  simp only [VisionBuf.lum, bright_tail_buf, U64, hidx]
  by_cases h : 65536 ≤ i
  · have h2 : 4294967296 ≤ i * 65536 + j := by omega
    simp [h, h2]
  · have h2 : ¬ 4294967296 ≤ i * 65536 + j := by omega
    simp [h, h2]

theorem dark_head_buf_lum (i j : Nat) (_hi : i < 65537) (hj : j < 65536) :
    (dark_head_buf 5).lum (i : Int) (j : Int) = if 1 ≤ i then 5 else 0 := by
  have hidx : ((((i : Int) * ((65536 : Nat) : Int) + (j : Int)) %
      ((18446744073709551616 : Nat) : Int)).toNat) = i * 65536 + j := by omega
  simp only [VisionBuf.lum, dark_head_buf, U64, hidx]
  by_cases h : 1 ≤ i
  · have h2 : ¬ i * 65536 + j < 65536 := by omega
    simp [h, h2]
  · have h2 : i * 65536 + j < 65536 := by omega
    simp [h, h2]

/-- C19 (as stated, refuted): on a 65536 x 65537 region, steps 1, take the plane whose
last row holds 5 and whose other rows hold 0, and the plane whose first row holds 0 and
whose other rows hold 5. The second is at least as bright at every sampled position, yet
the first gives level 5 and the second level 0: the second has `2^32` samples in bucket 5,
which wraps to 0 in the 32-bit counter. -/
theorem brighter_plane_lower_value :
    (∀ p ∈ sample_points ⟨0, 0, 65536, 65537⟩ 1 1,
      (bright_tail_buf 5).lum p.1 p.2 ≤ (dark_head_buf 5).lum p.1 p.2) ∧
    exposure_level (bright_tail_buf 5) ⟨0, 0, 65536, 65537⟩ 1 1 = some 5 ∧
    exposure_level (dark_head_buf 5) ⟨0, 0, 65536, 65537⟩ 1 1 = some 0 ∧
    calculate_exposure_value (bright_tail_buf 5) ⟨0, 0, 65536, 65537⟩ 1 1 =
      some ((5 : ℚ) / 256) ∧
    calculate_exposure_value (dark_head_buf 5) ⟨0, 0, 65536, 65537⟩ 1 1 =
      some ((0 : ℚ) / 256) ∧
    ¬ ((5 : ℚ) / 256 ≤ (0 : ℚ) / 256) := by
  have hw : step_count 65536 1 = 65536 := by decide
  have hh : step_count 65537 1 = 65537 := by decide
  have hlen : ∀ b : VisionBuf, (samples b ⟨0, 0, 65536, 65537⟩ 1 1).length % U32 / 2
      = 32768 := by
    intro b
    rw [samples_length]
    simp only [hw, hh]
    decide
  have hpoint : ∀ p ∈ sample_points ⟨0, 0, 65536, 65537⟩ 1 1,
      (bright_tail_buf 5).lum p.1 p.2 ≤ (dark_head_buf 5).lum p.1 p.2 := by
    intro p hp
    obtain ⟨i, j, hi, hj, rfl⟩ := mem_sample_points _ _ _ p hp
    simp only [hw, hh] at hi hj
    have e1 : (0 : Int) + (i : Int) * 1 = (i : Int) := by ring
    have e2 : (0 : Int) + (j : Int) * 1 = (j : Int) := by ring
    simp only [e1, e2, bright_tail_buf_lum i j hi hj, dark_head_buf_lum i j hi hj]
    split_ifs <;> omega
  have hlevel1 : exposure_level (bright_tail_buf 5) ⟨0, 0, 65536, 65537⟩ 1 1 = some 5 := by
    obtain ⟨k, hk, hlevel, hreach, hgreatest⟩ :=
      exposure_level_spec (bright_tail_buf 5) ⟨0, 0, 65536, 65537⟩ 1 1 (by decide) (by decide)
    have h5 := count_ge_two_level (bright_tail_buf 5) 65536 5 5 (by decide)
      bright_tail_buf_lum
    have hk5 : k = 5 := by
      by_cases hk0 : k = 0
      · have := hgreatest 5 (by omega) (by omega)
        rw [hlen, h5] at this
        simp [U32] at this
      · have hkk := count_ge_two_level (bright_tail_buf 5) 65536 5 k (by omega)
          bright_tail_buf_lum
        rw [hlen, hkk] at hreach
        by_cases hle : k ≤ 5
        · by_contra hne
          have := hgreatest 5 (by omega) (by omega)
          rw [hlen, h5] at this
          simp [U32] at this
        · rw [if_neg hle] at hreach
          simp [U32] at hreach
    subst hk5
    simpa using hlevel
  have hlevel2 : exposure_level (dark_head_buf 5) ⟨0, 0, 65536, 65537⟩ 1 1 = some 0 := by
    obtain ⟨k, hk, hlevel, hreach, _⟩ :=
      exposure_level_spec (dark_head_buf 5) ⟨0, 0, 65536, 65537⟩ 1 1 (by decide) (by decide)
    have hk0 : k = 0 := by
      by_contra hne
      have hkk := count_ge_two_level (dark_head_buf 5) 1 5 k (by omega) dark_head_buf_lum
      rw [hlen, hkk] at hreach
      by_cases hle : k ≤ 5
      · rw [if_pos hle] at hreach
        simp [U32] at hreach
      · rw [if_neg hle] at hreach
        simp [U32] at hreach
    subst hk0
    simpa using hlevel
  have hval1 := calculate_exposure_value_of_level _ _ _ _ _ hlevel1
  have hval2 := calculate_exposure_value_of_level _ _ _ _ _ hlevel2
  refine ⟨hpoint, hlevel1, hlevel2, by simpa using hval1, by simpa using hval2, by norm_num⟩

end CameraCommon
